import Mathlib

/-!
Verification development for `cargo-should-be-public-checker`.

The program analyzes the rustdoc JSON item graph of a library package and
reports items that are reachable through public signatures (the "visible"
set) but cannot be named through any public import path (the "importable"
set).  This file gives a shallow embedding of the program's core
(`src/item_graph.rs` and `src/main.rs`) and proves properties of it.

Modelling conventions:
- rustdoc JSON ids are natural numbers; hash maps of the source are
  association lists that preserve insertion order (a deterministic
  refinement of Rust `HashMap` iteration order);
- the external collaborators (the rustdoc JSON builder shell-out and the
  cargo-metadata default-package discovery) are an environment record of
  pure functions;
- mutable state (`GraphCache`) is threaded explicitly through a result
  type `MRes` that carries the state on both success and error;
- Rust panics (`unwrap`, `unreachable!`, `unimplemented!`, debug
  assertions, out-of-bounds indexing) are modelled as a `fatal` error
  that is never caught; `eyre` errors are a `fail` error carrying the
  message; the recursive functions take a fuel parameter and report
  `outOfFuel` when it runs out, which models non-termination and, like a
  panic, is never caught;
- the debug assertions of `canon_id` / `module_id` are included (the
  default cargo profile compiles them in);
- error message texts are modelled loosely (no Debug formatting).
-/

namespace Spbc

/-- Local rustdoc JSON id within one crate (`rustdoc_types::Id`, a u32). -/
abbrev RId := Nat

/-- Association list with insertion order, modelling `HashMap`. -/
abbrev AList (κ α : Type) : Type := List (κ × α)

/-- Lookup of the value bound to a key (first binding wins; `insert`
keeps at most one binding per key). -/
def AList.lookup {κ α : Type} [DecidableEq κ] : AList κ α → κ → Option α
  | [], _ => none
  | (k, v) :: rest, k' => if k' = k then some v else AList.lookup rest k'

/-- Key membership, as `HashMap::contains_key`. -/
def AList.contains {κ α : Type} [DecidableEq κ] (m : AList κ α) (k : κ) : Bool :=
  (AList.lookup m k).isSome

/-- Insert a binding, overwriting any existing binding of the key in
place, as `HashMap::insert`. -/
def AList.insert {κ α : Type} [DecidableEq κ] : AList κ α → κ → α → AList κ α
  | [], k, v => [(k, v)]
  | (k', v') :: rest, k, v =>
    if k' = k then (k, v) :: rest else (k', v') :: AList.insert rest k v

/-- Keys in order, as `HashMap::keys`. -/
def AList.keysOf {κ α : Type} (m : AList κ α) : List κ := m.map (fun p => p.1)

/-- Union that overwrites existing bindings with the new ones, as
`HashMap::extend`. -/
def AList.extendWith {κ α : Type} [DecidableEq κ] (m other : AList κ α) : AList κ α :=
  other.foldl (fun a p => AList.insert a p.1 p.2) m

/-! ## The rustdoc type grammar (`rustdoc_types`), as walked by the
visible linker in `src/main.rs`.  The mutual recursion through lists and
options is expressed with dedicated list/option types so that the
walkers below are structurally recursive.  Fields the program never
reads (lifetimes, mutability flags, const expressions, ...) are
omitted. -/

mutual

/-- Model of `rustdoc_types::Type`. -/
inductive Ty where
  | resolvedPath (path : RPath)
  | dynTrait (traits : PolyTraitList)
  | generic (name : String)
  | primitiveTy (name : String)
  | functionPointer (sig : FnSig) (generic_params : ParamList)
  | tuple (types : TyList)
  | slice (type_ : Ty)
  | array (type_ : Ty) (len : String)
  | pat (type_ : Ty)
  | implTrait (bounds : BoundList)
  | infer
  | rawPointer (is_mutable : Bool) (type_ : Ty)
  | borrowedRef (is_mutable : Bool) (type_ : Ty)
  | qualifiedPath (name : String) (args : GenericArgs) (self_type : Ty)
      (trait_ : RPathOpt)

/-- Model of `rustdoc_types::Path` (a resolved path with an id). -/
inductive RPath where
  | mk (name : String) (id : RId) (args : GenericArgsOpt)

inductive RPathOpt where
  | none
  | some (p : RPath)

/-- Model of `rustdoc_types::GenericArgs`. -/
inductive GenericArgs where
  | angleBracketed (args : ArgList) (constraints : ConstraintList)
  | parenthesized (inputs : TyList) (output : TyOpt)

inductive GenericArgsOpt where
  | none
  | some (a : GenericArgs)

/-- Model of `rustdoc_types::GenericArg`. -/
inductive GenericArg where
  | lifetime (name : String)
  | tyArg (type_ : Ty)
  | constArg
  | inferArg

/-- Model of `rustdoc_types::AssocItemConstraint`. -/
inductive AssocItemConstraint where
  | mk (name : String) (args : GenericArgs) (binding : AssocItemConstraintKind)

/-- Model of `rustdoc_types::AssocItemConstraintKind`. -/
inductive AssocItemConstraintKind where
  | equality (term : Term)
  | constraint (bounds : BoundList)

/-- Model of `rustdoc_types::Term`. -/
inductive Term where
  | ty (type_ : Ty)
  | constantTerm

/-- Model of `rustdoc_types::GenericBound`. -/
inductive GenericBound where
  | traitBound (trait_ : RPath) (generic_params : ParamList)
  | outlives (lifetime : String)
  | useBound

/-- Model of `rustdoc_types::GenericParamDef`. -/
inductive GenericParamDef where
  | mk (name : String) (kind : GenericParamDefKind)

/-- Model of `rustdoc_types::GenericParamDefKind`. -/
inductive GenericParamDefKind where
  | lifetimeKind
  | typeKind (bounds : BoundList) (default : TyOpt)
  | constKind

/-- Model of `rustdoc_types::FunctionSignature`: named inputs and an
optional output type. -/
inductive FnSig where
  | mk (inputs : InputList) (output : TyOpt)

/-- Model of `rustdoc_types::PolyTrait`. -/
inductive PolyTrait where
  | mk (trait_ : RPath) (generic_params : ParamList)

inductive TyList where
  | nil
  | cons (t : Ty) (rest : TyList)

inductive TyOpt where
  | none
  | some (t : Ty)

inductive ArgList where
  | nil
  | cons (a : GenericArg) (rest : ArgList)

inductive ConstraintList where
  | nil
  | cons (c : AssocItemConstraint) (rest : ConstraintList)

inductive BoundList where
  | nil
  | cons (b : GenericBound) (rest : BoundList)

inductive ParamList where
  | nil
  | cons (p : GenericParamDef) (rest : ParamList)

inductive InputList where
  | nil
  | cons (name : String) (t : Ty) (rest : InputList)

inductive PolyTraitList where
  | nil
  | cons (p : PolyTrait) (rest : PolyTraitList)

end

/-- Model of `rustdoc_types::WherePredicate` (not recursive through the
grammar above, so a plain inductive with plain lists). -/
inductive WherePredicate where
  | boundPredicate (type_ : Ty) (bounds : List GenericBound)
      (generic_params : List GenericParamDef)
  | lifetimePredicate (lifetime : String)
  | eqPredicate (lhs : Ty) (rhs : Term)

/-- Model of `rustdoc_types::Generics`. -/
structure Generics where
  params : List GenericParamDef
  where_predicates : List WherePredicate

/-- Model of `rustdoc_types::Visibility`. -/
inductive Visibility where
  | public
  | default
  | crateVis
  | restricted
deriving DecidableEq

/-- Model of `rustdoc_types::Use`: the payload of a `use` item. -/
structure UseData where
  source : String
  name : String
  target : Option RId
  is_glob : Bool

/-- Model of `rustdoc_types::Module`. -/
structure ModuleData where
  is_crate : Bool
  items : List RId

/-- Model of `rustdoc_types::StructKind`. -/
inductive StructKind where
  | unit
  | tupleKind (fields : List (Option RId))
  | plain (fields : List RId)

/-- Model of `rustdoc_types::Struct`. -/
structure StructData where
  kind : StructKind
  generics : Generics
  impls : List RId

/-- Model of `rustdoc_types::Union`. -/
structure UnionData where
  generics : Generics
  fields : List RId
  impls : List RId

/-- Model of `rustdoc_types::Enum`. -/
structure EnumData where
  generics : Generics
  variants : List RId
  impls : List RId

/-- Model of `rustdoc_types::VariantKind`. -/
inductive VariantKind where
  | plain
  | tupleKind (fields : List (Option RId))
  | structKind (fields : List RId)

/-- Model of `rustdoc_types::Variant`. -/
structure VariantData where
  kind : VariantKind

/-- Model of `rustdoc_types::Function`. -/
structure FunctionData where
  sig : FnSig
  generics : Generics

/-- Model of `rustdoc_types::Trait` (fields the program reads). -/
structure TraitData where
  items : List RId
  generics : Generics
  bounds : List GenericBound

/-- Model of `rustdoc_types::Impl` (fields the program reads). -/
structure ImplData where
  trait_ : RPathOpt
  generics : Generics
  items : List RId

/-- Model of `rustdoc_types::TypeAlias`. -/
structure TypeAliasData where
  type_ : Ty
  generics : Generics

/-- Model of `rustdoc_types::Static`. -/
structure StaticData where
  type_ : Ty

/-- Model of `rustdoc_types::ItemEnum`, restricted to the payloads the
program reads. -/
inductive ItemEnum where
  | module (m : ModuleData)
  | externCrate (name : String) (rename : Option String)
  | use_ (u : UseData)
  | union_ (u : UnionData)
  | struct_ (s : StructData)
  | structField (type_ : Ty)
  | enum_ (e : EnumData)
  | variant (v : VariantData)
  | function (f : FunctionData)
  | trait_ (t : TraitData)
  | traitAlias
  | impl_ (i : ImplData)
  | typeAlias (t : TypeAliasData)
  | constant (type_ : Ty)
  | staticItem (s : StaticData)
  | externType
  | macroDecl
  | procMacroDecl
  | primitive
  | assocConst (type_ : Ty)
  | assocType (generics : Generics) (bounds : List GenericBound) (type_ : Option Ty)

/-- Model of `rustdoc_types::Item` (fields the program reads). -/
structure Item where
  name : Option String
  visibility : Visibility
  inner : ItemEnum

/-- Model of `rustdoc_types::ItemSummary` (an entry of `Crate::paths`). -/
structure ItemSummary where
  crate_id : Nat
  path : List String

/-- Model of `rustdoc_types::ExternalCrate`. -/
structure ExternalCrate where
  name : String

/-- Model of `rustdoc_types::Crate`: a rustdoc JSON index.  The `root`
field of the original is omitted because the program never reads it (it
finds the root module by scanning the index). -/
structure Crate where
  index : AList RId Item
  paths : AList RId ItemSummary
  external_crates : AList Nat ExternalCrate

/-! ## Identifiers and the graph cache (`src/item_graph.rs`). -/

/-- Model of `AbsId`: a rustdoc JSON id within some crate of a
`GraphCache`. -/
structure AbsId where
  crate_idx : Nat
  item_id : RId
deriving DecidableEq

/-- Elevate a rustdoc JSON id in the same crate into an absolute id
(`AbsId::same_crate`). -/
def AbsId.same_crate (a : AbsId) (item_id : RId) : AbsId :=
  { crate_idx := a.crate_idx, item_id := item_id }

/-- Model of `CanonId`: a newtype for canonicalized absolute ids. -/
structure CanonId where
  abs : AbsId
deriving DecidableEq

/-- Model of `ModuleId`: a newtype for canonical ids of module items. -/
structure ModuleId where
  canon : CanonId
deriving DecidableEq

/-- Model of `ResolveCacheEntry`. -/
inductive ResolveCacheEntry where
  | id (c : CanonId)
  | ignore
deriving DecidableEq

/-- Environment of external collaborators: the rustdoc JSON builder
shell-out (`CliArgs::build_rustdoc_json`) and the root package name
(`CliArgs::package`, called through `root_package` in `bfs`; it shells
out to cargo-metadata when no `-p` flag is given).  Both are modelled as
fixed pure results of the ambient system. -/
structure Env where
  build_rustdoc_json : String → Except String Crate
  root_package : Except String String

/-- Model of `CrateEntry`.  The raw-pointer cell holding the rustdoc
JSON is modelled as a plain immutable field (the cell is write-once in
the source). -/
structure CrateEntry where
  rustdoc_json : Crate
  root_module : RId
  resolve_cache : List (Option ResolveCacheEntry)
  import_cache : List (Option (AList String CanonId))

/-- Model of `GraphCache`.  The extra `stderr` field models the lines the
program writes to standard error (`eprintln!`), which the source treats
as an ambient effect. -/
structure GraphCache where
  cli_args : Env
  crate_lookup : AList String Nat
  crates : List CrateEntry
  stderr : List String

/-- Model of `GraphCache::new`. -/
def GraphCache.new (cli_args : Env) : GraphCache :=
  { cli_args := cli_args, crate_lookup := [], crates := [], stderr := [] }

/-- Errors of the embedding.  `fail` and `ignore` are the two variants of
the source's `ResolveErr`; `fatal` models a Rust panic and `outOfFuel`
models non-termination — neither is ever caught by the translated
code. -/
inductive RErr where
  | fail (msg : String)
  | ignore
  | fatal (msg : String)
  | outOfFuel
deriving DecidableEq

/-- Model of `ResolveErr::wrap_err`: error context is prepended to a
`fail` message; `ignore` (and the artificial variants) pass through. -/
def wrapErr (msg : String) : RErr → RErr
  | .fail e => .fail (msg ++ ": " ++ e)
  | e => e

/-- Result of a stateful computation: the final state together with
either a value or an error. -/
inductive MRes (α : Type) where
  | ok (s : GraphCache) (a : α)
  | err (s : GraphCache) (e : RErr)

/-- Value component of a result, discarding the state (used to state
concrete evaluations, since states contain the environment's
functions). -/
def MRes.val {α : Type} : MRes α → Except RErr α
  | .ok _ a => .ok a
  | .err _ e => .error e

/-- State component of a result. -/
def MRes.st {α : Type} : MRes α → GraphCache
  | .ok s _ => s
  | .err s _ => s

/-- Pretty printing of a path, as `DisplayPath` in
`src/pretty_print.rs`. -/
def displayPath (path : List String) : String :=
  String.intercalate "::" path

/-- Model of the `STDLIBS` constant. -/
def STDLIBS : List String := ["std", "core", "alloc", "proc_macro", "test"]

/-- Item lookup for an absolute id: index into `crates`, then into the
crate's rustdoc JSON index. -/
def itemLookup (s : GraphCache) (id : AbsId) : Option Item :=
  match s.crates[id.crate_idx]? with
  | some entry => AList.lookup entry.rustdoc_json.index id.item_id
  | none => none

/-- Resolve-cache lookup for an absolute id
(`resolve_cache.get(id).and_then(|o| o.as_ref())`, with a missing crate
treated as no entry for the purpose of stating invariants; the functions
below check the crate index themselves where the source would panic). -/
def slotLookup (s : GraphCache) (id : AbsId) : Option ResolveCacheEntry :=
  match s.crates[id.crate_idx]? with
  | some entry => entry.resolve_cache[id.item_id]?.join
  | none => none

/-- Import-cache (namespace cache) lookup for a canonical id. -/
def importLookup (s : GraphCache) (id : CanonId) : Option (AList String CanonId) :=
  match s.crates[id.abs.crate_idx]? with
  | some entry => entry.import_cache[id.abs.item_id]?.join
  | none => none

/-- Grow a dense cache vector with `none` padding so that index `i`
exists (`while cache.len() <= i cache.push(None)`). -/
def padTo {α : Type} (l : List (Option α)) (i : Nat) : List (Option α) :=
  l ++ List.replicate (i + 1 - l.length) none

/-- Pad then write index `i` of a dense cache vector. -/
def setSlot {α : Type} (l : List (Option α)) (i : Nat) (v : α) : List (Option α) :=
  (padTo l i).set i (some v)

/-- Replace the entry of crate `idx` (callers have already established
that the index is in bounds). -/
def updateCrate (s : GraphCache) (idx : Nat) (e : CrateEntry) : GraphCache :=
  { s with crates := s.crates.set idx e }

/-- Append a line to the modelled standard error stream. -/
def pushStderr (s : GraphCache) (line : String) : GraphCache :=
  { s with stderr := s.stderr ++ [line] }

/-- Item kinds that are never canonical: `ExternCrate` and any non-glob
`Use` (the kinds rejected by the `canon_id` debug assertion). -/
def isBadKind : ItemEnum → Bool
  | .externCrate _ _ => true
  | .use_ u => !u.is_glob
  | _ => false

/-- Item kinds that are modules. -/
def isModule : ItemEnum → Bool
  | .module _ => true
  | _ => false

/-- Model of `GraphCache::canon_id`: wrap an `AbsId` in a `CanonId`.  The
debug assertion (id present in the index and kind canonical) is
included; its failure is a panic, hence `fatal`. -/
def canon_id (s : GraphCache) (id : AbsId) : Except RErr CanonId :=
  match itemLookup s id with
  | none => .error (.fatal "Canon id not internal")
  | some item =>
    if isBadKind item.inner then .error (.fatal "Canon id not canon")
    else .ok ⟨id⟩

/-- Model of `GraphCache::module_id`: wrap an `AbsId` in a `ModuleId`,
with the debug assertion that the item is a module. -/
def module_id (s : GraphCache) (id : AbsId) : Except RErr ModuleId :=
  match canon_id s id with
  | .error e => .error e
  | .ok c =>
    match itemLookup s c.abs with
    | none => .error (.fatal "Module id not internal")
    | some item =>
      if isModule item.inner then .ok ⟨c⟩
      else .error (.fatal "Module id not module")

/-- Find the id of the unique `Module { is_crate: true }` item of a
rustdoc JSON index (`index.values().find(..)` followed by `.id`; the
association list's key is the item's id). -/
def findRootModule : AList RId Item → Option RId
  | [] => none
  | (k, item) :: rest =>
    match item.inner with
    | .module m => if m.is_crate then some k else findRootModule rest
    | _ => findRootModule rest

/-- Model of `GraphCache::resolve_crate`: resolve the canonical id of the
root module of the crate with the given name, loading the crate's
rustdoc JSON on first use. -/
def resolve_crate (crate_name : String) (s : GraphCache) : MRes ModuleId :=
  let name := if crate_name = "webpki" then "rustls_webpki" else crate_name
  if STDLIBS.contains name then .err s .ignore
  else
    match AList.lookup s.crate_lookup name with
    | some crate_idx =>
      match s.crates[crate_idx]? with
      | none => .err s (.fatal "index out of bounds: crates")
      | some entry =>
        match module_id s ⟨crate_idx, entry.root_module⟩ with
        | .ok m => .ok s m
        | .error e => .err s e
    | none =>
      let crate_idx := s.crates.length
      match s.cli_args.build_rustdoc_json name with
      | .error e => .err s (.fail e)
      | .ok rustdoc_json =>
        match findRootModule rustdoc_json.index with
        | none =>
          .err s (.fail ("No root module in rustdoc JSON of " ++ name ++ " crate"))
        | some root_module =>
          let s' : GraphCache :=
            { s with
              crates := s.crates ++
                [{ rustdoc_json := rustdoc_json, root_module := root_module,
                   resolve_cache := [], import_cache := [] }],
              crate_lookup := AList.insert s.crate_lookup name crate_idx }
          match module_id s' ⟨crate_idx, root_module⟩ with
          | .ok m => .ok s' m
          | .error e => .err s' e

/-! ## The resolver and namespace builder, mutually recursive with a fuel
parameter.  Every cross-call (and every loop iteration) consumes one unit
of fuel, so the block is structurally recursive on the fuel; running out
of fuel yields the uncatchable `outOfFuel` error. -/

mutual

/-- Model of `GraphCache::resolve`: resolve the canonical referent of the
given id, with caching.  Writes to the cache are keyed by the input id;
only `Resolved` and `Ignored` outcomes are cached. -/
def resolve : Nat → AbsId → Bool → GraphCache → MRes CanonId
  | 0, _, _, s => .err s .outOfFuel
  | n+1, id, filter_public, s =>
    match s.crates[id.crate_idx]? with
    | none => .err s (.fatal "index out of bounds: crates")
    | some entry =>
      match entry.resolve_cache[id.item_id]?.join with
      | some (.id c) => .ok s c
      | some .ignore => .err s .ignore
      | none =>
        match resolve_inner n id filter_public s with
        | .ok s₁ c =>
          match s₁.crates[id.crate_idx]? with
          | none => .err s₁ (.fatal "index out of bounds: crates")
          | some e₁ =>
            .ok (updateCrate s₁ id.crate_idx
              { e₁ with resolve_cache := setSlot e₁.resolve_cache id.item_id (.id c) }) c
        | .err s₁ .ignore =>
          match s₁.crates[id.crate_idx]? with
          | none => .err s₁ (.fatal "index out of bounds: crates")
          | some e₁ =>
            .err (updateCrate s₁ id.crate_idx
              { e₁ with resolve_cache := setSlot e₁.resolve_cache id.item_id .ignore }) .ignore
        | .err s₁ (.fail e) =>
          -- the cache vector is still grown with `None` padding before the
          -- match on the result, but no entry is written for a failure
          match s₁.crates[id.crate_idx]? with
          | none => .err s₁ (.fatal "index out of bounds: crates")
          | some e₁ =>
            .err (updateCrate s₁ id.crate_idx
              { e₁ with resolve_cache := padTo e₁.resolve_cache id.item_id }) (.fail e)
        | .err s₁ e => .err s₁ e

/-- Model of `GraphCache::resolve_inner`: resolve the canonical referent
of the given id, without caching.  The `filter_public` flag is accepted
but — as in the source, where the corresponding `if` block is empty —
never used. -/
def resolve_inner : Nat → AbsId → Bool → GraphCache → MRes CanonId
  | 0, _, _, s => .err s .outOfFuel
  | n+1, id, _filter_public, s =>
    match s.crates[id.crate_idx]? with
    | none => .err s (.fatal "index out of bounds: crates")
    | some entry =>
      match entry.resolve_cache[id.item_id]?.join with
      | some (.id c) => .ok s c
      | some .ignore => .err s .ignore
      | none =>
        match AList.lookup entry.rustdoc_json.index id.item_id with
        | some item =>
          -- id internal to its crate; attempt to make progress via it
          -- being a re-export
          match item.inner with
          | .externCrate name _ =>
            match resolve_crate name s with
            | .ok s₁ m => .ok s₁ m.canon
            | .err s₁ e => .err s₁ (wrapErr "Resolving `pub extern crate` item" e)
          | .use_ ⟨source, name, some iid2, false⟩ =>
            -- in resolving the referent, filter_public becomes false,
            -- since a `pub use` re-export can make a private item
            -- publically accessible
            match resolve n (id.same_crate iid2) false s with
            | .ok s₁ c => .ok s₁ c
            | .err s₁ e =>
              .err s₁ (wrapErr
                ("Resolving referent of `pub use " ++ source ++ " as " ++ name ++ "`") e)
          | _ =>
            -- base case, already canonical
            match canon_id s id with
            | .ok c => .ok s c
            | .error e => .err s e
        | none =>
          -- id external to its crate; make progress by jumping to an
          -- internal id
          match AList.lookup entry.rustdoc_json.paths id.item_id with
          | none => .err s (.fail "Rustdoc JSON id neither in expected index or paths")
          | some item_summary =>
            match AList.lookup entry.rustdoc_json.external_crates item_summary.crate_id with
            | none => .err s (.fail "Rustdoc JSON external crates key missing")
            | some ext =>
              match resolve_crate ext.name s with
              | .err s₁ e =>
                .err s₁ (wrapErr
                  ("Resolving ItemSummary crate " ++ ext.name ++ " for " ++
                    displayPath item_summary.path) e)
              | .ok s₁ crate_id =>
                match item_summary.path with
                | [] => .err s₁ (.fatal "slice index out of range: path[1..]")
                | _ :: restPath =>
                  match resolve_path_go n crate_id.canon restPath s₁ with
                  | .ok s₂ c => .ok s₂ c
                  | .err s₂ e =>
                    .err s₂ (wrapErr
                      ("Resolving item in other crate: " ++
                        displayPath item_summary.path) e)

/-- Loop of `GraphCache::resolve_path`: walk the remaining path segments
from a canonical id, building each module namespace on the way. -/
def resolve_path_go : Nat → CanonId → List String → GraphCache → MRes CanonId
  | 0, _, _, s => .err s .outOfFuel
  | _+1, id, [], s => .ok s id
  | n+1, id, path_part :: rest, s =>
    if path_part = "__private" then .err s .ignore
    else
      match module_namespace n id s with
      | .err s₁ e =>
        .err s₁ (wrapErr ("Resolving path part " ++ path_part) e)
      | .ok s₁ namespace_ =>
        match AList.lookup namespace_ path_part with
        | none =>
          .err s₁ (.fail ("Unable to find importable item: " ++ path_part))
        | some id2 => resolve_path_go n id2 rest s₁

/-- Model of `GraphCache::module_namespace`: build (with caching) the
mapping of names importable directly through a module to their canonical
referents. -/
def module_namespace : Nat → CanonId → GraphCache → MRes (AList String CanonId)
  | 0, _, s => .err s .outOfFuel
  | n+1, id, s =>
    match importLookup s id with
    | some cached => .ok s cached
    | none =>
      match module_namespace_inner n id s with
      | .err s₁ e => .err s₁ e
      | .ok s₁ namespace_ =>
        match s₁.crates[id.abs.crate_idx]? with
        | none => .err s₁ (.fatal "index out of bounds: crates")
        | some e₁ =>
          .ok (updateCrate s₁ id.abs.crate_idx
            { e₁ with import_cache := setSlot e₁.import_cache id.abs.item_id namespace_ })
            namespace_

/-- Model of `GraphCache::module_namespace_inner` (no caching): check the
id refers to a module and fold over its children. -/
def module_namespace_inner : Nat → CanonId → GraphCache → MRes (AList String CanonId)
  | 0, _, s => .err s .outOfFuel
  | n+1, id, s =>
    match itemLookup s id.abs with
    | none => .err s (.fatal "unwrap: item not in index")
    | some item =>
      match item.inner with
      | .module m => module_namespace_go n id m.items [] s
      | _ => .err s (.fail "Cannot import from non-module")

/-- Loop of `module_namespace_inner` over the module's children,
accumulating the namespace. -/
def module_namespace_go :
    Nat → CanonId → List RId → AList String CanonId → GraphCache →
    MRes (AList String CanonId)
  | 0, _, _, _, s => .err s .outOfFuel
  | _+1, _, [], acc, s => .ok s acc
  | n+1, id, child_iid :: rest, acc, s =>
    match resolve n (id.abs.same_crate child_iid) false s with
    | .err s₁ .ignore => module_namespace_go n id rest acc s₁
    | .err s₁ e => .err s₁ e
    | .ok s₁ child_id =>
      match itemLookup s₁ child_id.abs with
      | none => .err s₁ (.fatal "unwrap: item not in index")
      | some child_item =>
        match child_item.name with
        | some child_name =>
          -- child is importable
          module_namespace_go n id rest (AList.insert acc child_name child_id) s₁
        | none =>
          match child_item.inner with
          | .use_ ⟨_, _, some glob_imported_iid, true⟩ =>
            -- child is a glob import of another module, so the other
            -- module's namespace gets unioned into this one
            match resolve n (child_id.abs.same_crate glob_imported_iid) false s₁ with
            | .err s₂ .ignore => module_namespace_go n id rest acc s₂
            | .err s₂ e => .err s₂ e
            | .ok s₂ glob_imported_id =>
              match module_namespace_inner n glob_imported_id s₂ with
              | .err s₃ e =>
                .err s₃ (wrapErr "Unioning in namespace from glob import" e)
              | .ok s₃ glob_namespace =>
                module_namespace_go n id rest (AList.extendWith acc glob_namespace) s₃
          | _ => module_namespace_go n id rest acc s₁

end

/-- Model of `GraphCache::resolve_path`: resolve the canonical referent
of importing the given module followed by the given path. -/
def resolve_path (n : Nat) (id : ModuleId) (path : List String) (s : GraphCache) :
    MRes CanonId :=
  resolve_path_go n id.canon path s

/-! ## The two linkers (`src/main.rs`).  A linker takes an item and
produces the successor local ids it pushes into the `BfsLinker`, in
push order; `unimplemented!()` and `unreachable!()` panics surface as
errors that the BFS turns into a `fatal`. -/

/-- Sequence two walker results, concatenating the emitted ids
(modelling two successive pushes into the shared `BfsLinker`). -/
def eseq (a b : Except String (List RId)) : Except String (List RId) :=
  match a with
  | .error e => .error e
  | .ok xs =>
    match b with
    | .error e => .error e
    | .ok ys => .ok (xs ++ ys)

mutual

/-- Model of `link_visible_type`. -/
def link_visible_type : Ty → Except String (List RId)
  | .resolvedPath path => link_visible_path path
  | .dynTrait traits => link_visible_poly_traits traits
  | .generic _ => .ok []
  | .primitiveTy _ => .ok []
  | .functionPointer sig generic_params =>
    eseq (link_visible_function_signature sig) (link_visible_param_list generic_params)
  | .tuple types => link_visible_type_list types
  | .slice type_ => link_visible_type type_
  | .array type_ _ => link_visible_type type_
  | .pat _ => .error "not implemented: Type::Pat"
  | .implTrait bounds => link_visible_bound_list bounds
  | .infer => .ok []
  | .rawPointer _ type_ => link_visible_type type_
  | .borrowedRef _ type_ => link_visible_type type_
  | .qualifiedPath _ args self_type trait_ =>
    eseq (link_visible_generic_args args)
      (eseq (link_visible_type self_type) (link_visible_path_opt trait_))

/-- Model of `link_visible_path`: emit the path's id, then walk its
generic arguments. -/
def link_visible_path : RPath → Except String (List RId)
  | .mk _ id args =>
    match args with
    | .none => .ok [id]
    | .some a => eseq (.ok [id]) (link_visible_generic_args a)

def link_visible_path_opt : RPathOpt → Except String (List RId)
  | .none => .ok []
  | .some p => link_visible_path p

/-- Model of `link_visible_generic_args`. -/
def link_visible_generic_args : GenericArgs → Except String (List RId)
  | .angleBracketed args constraints =>
    eseq (link_visible_arg_list args) (link_visible_constraint_list constraints)
  | .parenthesized inputs output =>
    eseq (link_visible_type_list inputs) (link_visible_type_opt output)

def link_visible_arg_list : ArgList → Except String (List RId)
  | .nil => .ok []
  | .cons a rest =>
    match a with
    | .lifetime _ => link_visible_arg_list rest
    | .tyArg type_ => eseq (link_visible_type type_) (link_visible_arg_list rest)
    | .constArg => link_visible_arg_list rest
    | .inferArg => link_visible_arg_list rest

def link_visible_constraint_list : ConstraintList → Except String (List RId)
  | .nil => .ok []
  | .cons c rest =>
    match c with
    | .mk _ args binding =>
      eseq (link_visible_generic_args args)
        (eseq (link_visible_constraint_binding binding)
          (link_visible_constraint_list rest))

def link_visible_constraint_binding : AssocItemConstraintKind → Except String (List RId)
  | .equality term => link_visible_term term
  | .constraint bounds => link_visible_bound_list bounds

/-- Model of `link_visible_term`. -/
def link_visible_term : Term → Except String (List RId)
  | .ty type_ => link_visible_type type_
  | .constantTerm => .ok []

/-- Model of `link_visible_generic_bound`. -/
def link_visible_generic_bound : GenericBound → Except String (List RId)
  | .traitBound trait_ generic_params =>
    eseq (link_visible_path trait_) (link_visible_param_list generic_params)
  | .outlives _ => .ok []
  | .useBound => .ok []

def link_visible_bound_list : BoundList → Except String (List RId)
  | .nil => .ok []
  | .cons b rest => eseq (link_visible_generic_bound b) (link_visible_bound_list rest)

/-- Model of `link_visible_generic_param`. -/
def link_visible_generic_param : GenericParamDef → Except String (List RId)
  | .mk _ kind =>
    match kind with
    | .lifetimeKind => .ok []
    | .typeKind bounds default =>
      eseq (link_visible_bound_list bounds) (link_visible_type_opt default)
    | .constKind => .ok []

def link_visible_param_list : ParamList → Except String (List RId)
  | .nil => .ok []
  | .cons p rest => eseq (link_visible_generic_param p) (link_visible_param_list rest)

/-- Model of `link_visible_function_signature`: each input type, then
the output type. -/
def link_visible_function_signature : FnSig → Except String (List RId)
  | .mk inputs output =>
    eseq (link_visible_input_list inputs) (link_visible_type_opt output)

def link_visible_input_list : InputList → Except String (List RId)
  | .nil => .ok []
  | .cons _ t rest => eseq (link_visible_type t) (link_visible_input_list rest)

def link_visible_type_list : TyList → Except String (List RId)
  | .nil => .ok []
  | .cons t rest => eseq (link_visible_type t) (link_visible_type_list rest)

def link_visible_type_opt : TyOpt → Except String (List RId)
  | .none => .ok []
  | .some t => link_visible_type t

def link_visible_poly_traits : PolyTraitList → Except String (List RId)
  | .nil => .ok []
  | .cons p rest =>
    match p with
    | .mk trait_ generic_params =>
      eseq (link_visible_path trait_)
        (eseq (link_visible_param_list generic_params) (link_visible_poly_traits rest))

end

/-- Walk a plain list of generic bounds. -/
def link_visible_bounds (bounds : List GenericBound) : Except String (List RId) :=
  match bounds with
  | [] => .ok []
  | b :: rest => eseq (link_visible_generic_bound b) (link_visible_bounds rest)

/-- Walk a plain list of generic parameters. -/
def link_visible_params (params : List GenericParamDef) : Except String (List RId) :=
  match params with
  | [] => .ok []
  | p :: rest => eseq (link_visible_generic_param p) (link_visible_params rest)

/-- Model of the where-predicate arm of `link_visible_generics`. -/
def link_visible_where_predicate : WherePredicate → Except String (List RId)
  | .boundPredicate type_ bounds generic_params =>
    eseq (link_visible_type type_)
      (eseq (link_visible_bounds bounds) (link_visible_params generic_params))
  | .lifetimePredicate _ => .ok []
  | .eqPredicate lhs rhs => eseq (link_visible_type lhs) (link_visible_term rhs)

def link_visible_where_predicates (ps : List WherePredicate) : Except String (List RId) :=
  match ps with
  | [] => .ok []
  | p :: rest => eseq (link_visible_where_predicate p) (link_visible_where_predicates rest)

/-- Model of `link_visible_generics`: all parameters, then all where
predicates. -/
def link_visible_generics (generics : Generics) : Except String (List RId) :=
  eseq (link_visible_params generics.params)
    (link_visible_where_predicates generics.where_predicates)

/-- Ids emitted for the optional tuple fields of a tuple struct or tuple
variant (`Some` fields only, in order). -/
def link_tuple_fields (fields : List (Option RId)) : List RId :=
  match fields with
  | [] => []
  | some f :: rest => f :: link_tuple_fields rest
  | none :: rest => link_tuple_fields rest

/-- Model of `link_importable` (`src/main.rs`): the bfs linker that finds
all items which can be imported from the root crate. -/
def link_importable (item : Item) : Except String (List RId) :=
  match item.inner with
  | .module m => .ok m.items
  | .use_ ⟨_, _, some id, true⟩ => .ok [id]
  | _ => .ok []

/-- Model of `link_visible` (`src/main.rs`): the bfs linker that finds
all items which are a part of the root crate's API surface. -/
def link_visible (item : Item) : Except String (List RId) :=
  match item.inner with
  | .module _ => .ok []
  | .externCrate _ _ => .error "unreachable: not canonical"
  | .use_ u => if u.is_glob then .ok [] else .error "unreachable: not canonical"
  | .union_ u =>
    eseq (link_visible_generics u.generics)
      (.ok (u.fields ++ u.impls))
  | .struct_ st =>
    eseq
      (match st.kind with
       | .unit => .ok []
       | .tupleKind fields => .ok (link_tuple_fields fields)
       | .plain fields => .ok fields)
      (eseq (link_visible_generics st.generics) (.ok st.impls))
  | .structField type_ => link_visible_type type_
  | .enum_ e =>
    eseq (link_visible_generics e.generics) (.ok (e.variants ++ e.impls))
  | .variant v =>
    match v.kind with
    | .plain => .ok []
    | .tupleKind fields => .ok (link_tuple_fields fields)
    | .structKind fields => .ok fields
  | .function f =>
    eseq (link_visible_function_signature f.sig) (link_visible_generics f.generics)
  | .trait_ t =>
    eseq (.ok t.items)
      (eseq (link_visible_generics t.generics) (link_visible_bounds t.bounds))
  | .traitAlias => .error "not implemented: TraitAlias"
  | .impl_ i =>
    eseq (link_visible_generics i.generics) (.ok i.items)
  | .typeAlias t =>
    eseq (link_visible_type t.type_) (link_visible_generics t.generics)
  | .constant type_ => link_visible_type type_
  | .staticItem st => link_visible_type st.type_
  | .externType => .error "not implemented: ExternType"
  | .macroDecl => .ok []
  | .procMacroDecl => .ok []
  | .primitive => .ok []
  | .assocConst type_ => link_visible_type type_
  | .assocType generics bounds type_ =>
    eseq (link_visible_generics generics)
      (eseq (link_visible_bounds bounds)
        (match type_ with
         | some t => link_visible_type t
         | none => .ok []))

/-! ## The BFS engine (`GraphCache::bfs`). -/

/-- Item kinds whose `Default` visibility is treated as public in the
BFS (`AssocType`, `Variant`, `Impl`). -/
def defaultsPublic : ItemEnum → Bool
  | .assocType _ _ _ => true
  | .variant _ => true
  | .impl_ _ => true
  | _ => false

/-- The `is_public` test of the BFS child loop, determined from the
pre-canonicalization item (`index.get(&iid2).is_some_and(..)`). -/
def isPublicChild (rustdoc_json : Crate) (iid2 : RId) : Bool :=
  match AList.lookup rustdoc_json.index iid2 with
  | none => false
  | some item =>
    match item.visibility with
    | .public => true
    | .default => defaultsPublic item.inner
    | _ => false

/-- Loose model of the derived Debug rendering of a path's generic
arguments, used only inside display labels of trait impls
(`format!` with `{:?}`); the exact text is immaterial to the program's
logic. -/
def debugArgsOpt : GenericArgsOpt → String
  | .none => "None"
  | .some _ => "Some(..)"

/-- Display-name derivation for a child id during BFS (the
`item2_name` computation, with `PATH_MODE = false`): the item's own
name, or a kind-specific fallback, or the last segment of its path
summary; `Ok(none)` means the child contributes no extra label
segment. -/
def bfs_child_name (rustdoc_json : Crate) (iid2 : RId) : Except RErr (Option String) :=
  match AList.lookup rustdoc_json.index iid2 with
  | some item2 =>
    match item2.name with
    | some name => .ok (some name)
    | none =>
      match item2.inner with
      | .impl_ ⟨.none, _, _⟩ => .ok none
      | .impl_ ⟨.some trait_, _, _⟩ =>
        match trait_ with
        | .mk tname _ targs =>
          .ok (some ("`<_ as " ++ tname ++ "<" ++ debugArgsOpt targs ++ ">>`"))
      | .externCrate name none => .ok (some name)
      | .externCrate _ (some rename) => .ok (some rename)
      | .use_ ⟨_, name, _, false⟩ => .ok (some name)
      | .use_ ⟨_, _, _, true⟩ => .ok none
      | _ => .error (.fail "Unexpected lack of name for item")
  | none =>
    match AList.lookup rustdoc_json.paths iid2 with
    | none => .error (.fail "Rustdoc JSON id neither in expected index or paths")
    | some item_summary => .ok (item_summary.path.reverse.head?)

/-- Model of `str::replace('-', "_")` on the root crate name. -/
def dashesToUnderscores (s : String) : String :=
  String.mk (s.data.map (fun c => if c = '-' then '_' else c))

/-- Child loop of one BFS step: drain the linker output for the dequeued
id `parent`, updating the queue, the output map and the state.  A child
whose resolution fails is logged to the modelled standard error and
dropped; a child resolving to `Ignored` is skipped silently. -/
def bfs_children :
    Nat → Bool → CanonId → Crate → List RId → List CanonId →
    AList CanonId String → GraphCache → MRes (List CanonId × AList CanonId String)
  | 0, _, _, _, _, _, _, s => .err s .outOfFuel
  | _+1, _, _, _, [], queue, hash, s => .ok s (queue, hash)
  | n+1, require_public, parent, rustdoc_json, iid2 :: rest, queue, hash, s =>
    let is_public := isPublicChild rustdoc_json iid2
    if require_public && !is_public then
      -- skip private item
      bfs_children n require_public parent rustdoc_json rest queue hash s
    else
      match resolve n (parent.abs.same_crate iid2) true s with
      | .ok s₁ id2 =>
        if AList.contains hash id2 then
          bfs_children n require_public parent rustdoc_json rest queue hash s₁
        else
          match bfs_child_name rustdoc_json iid2 with
          | .error e => .err s₁ e
          | .ok item2_name =>
            match AList.lookup hash parent with
            | none => .err s₁ (.fatal "index panic: hash[&id]")
            | some parent_label =>
              let item2_path :=
                match item2_name with
                | some name => parent_label ++ "::" ++ name
                | none => parent_label
              let hash' := AList.insert hash id2 item2_path
              let queue' := if is_public then queue ++ [id2] else queue
              bfs_children n require_public parent rustdoc_json rest queue' hash' s₁
      | .err s₁ (.fail e) =>
        match AList.lookup hash parent with
        | none => .err s₁ (.fatal "index panic: hash[&id]")
        | some parent_label =>
          bfs_children n require_public parent rustdoc_json rest queue hash
            (pushStderr s₁ ("Resolving child of " ++ parent_label ++ ": " ++ e))
      | .err s₁ .ignore =>
        bfs_children n require_public parent rustdoc_json rest queue hash s₁
      | .err s₁ e => .err s₁ e

/-- Worklist loop of `GraphCache::bfs`: dequeue a canonical id, run the
linker on its item, process the children, continue. -/
def bfs_go :
    Nat → (Item → Except String (List RId)) → Bool → List CanonId →
    AList CanonId String → GraphCache → MRes (AList CanonId String)
  | 0, _, _, _, _, s => .err s .outOfFuel
  | _+1, _, _, [], hash, s => .ok s hash
  | n+1, link, require_public, id :: queue, hash, s =>
    match s.crates[id.abs.crate_idx]? with
    | none => .err s (.fatal "index out of bounds: crates")
    | some entry =>
      match AList.lookup entry.rustdoc_json.index id.abs.item_id with
      | none => .err s (.fatal "unwrap: item not in index")
      | some item =>
        match link item with
        | .error msg => .err s (.fatal msg)
        | .ok children =>
          match bfs_children n require_public id entry.rustdoc_json children queue hash s with
          | .err s₁ e => .err s₁ e
          | .ok s₁ (queue', hash') => bfs_go n link require_public queue' hash' s₁

/-- Model of `GraphCache::bfs`: either seed the traversal with a given
map (pre-populating the output with it), or start from the root
package's module. -/
def bfs (fuel : Nat) (link : Item → Except String (List RId))
    (start_hash : Option (AList CanonId String)) (require_public : Bool)
    (s : GraphCache) : MRes (AList CanonId String) :=
  match start_hash with
  | some h => bfs_go fuel link require_public (AList.keysOf h) h s
  | none =>
    match s.cli_args.root_package with
    | .error e => .err s (.fail e)
    | .ok root_crate_name =>
      match resolve_crate root_crate_name s with
      | .err s₁ .ignore => .err s₁ (.fail "Root crate is ignored (huh?)")
      | .err s₁ e => .err s₁ e
      | .ok s₁ root_id =>
        bfs_go fuel link require_public [root_id.canon]
          (AList.insert ([] : AList CanonId String) root_id.canon
            (dashesToUnderscores root_crate_name)) s₁

/-! ## The report phase (`main` in `src/main.rs`). -/

/-- Lexicographic order on strings by unicode scalar values, modelling
the byte order `Vec::sort` uses on Rust strings (the two agree on the
labels the program builds). -/
def lexLt : List Char → List Char → Bool
  | [], [] => false
  | [], _ :: _ => true
  | _ :: _, [] => false
  | a :: as_, b :: bs =>
    if a.toNat < b.toNat then true
    else if a.toNat = b.toNat then lexLt as_ bs
    else false

def strLt (a b : String) : Bool := lexLt a.data b.data

def insertSorted (x : String) : List String → List String
  | [] => [x]
  | y :: ys => if strLt y x then y :: insertSorted x ys else x :: y :: ys

/-- Sort labels lexicographically (`paths.sort()`). -/
def sortStrings : List String → List String
  | [] => []
  | x :: xs => insertSorted x (sortStrings xs)

/-- The kind filter of the report phase: keep named type declarations;
`TraitAlias` and `ExternType` hit `unimplemented!()` (a panic). -/
def reportKind : ItemEnum → Except RErr Bool
  | .union_ _ => .ok true
  | .struct_ _ => .ok true
  | .enum_ _ => .ok true
  | .trait_ _ => .ok true
  | .traitAlias => .error (.fatal "not implemented: TraitAlias")
  | .typeAlias _ => .ok true
  | .externType => .error (.fatal "not implemented: ExternType")
  | _ => .ok false

/-- The filter-and-collect of the report phase: iterate the visible map,
keep the labels of ids that are not importable and whose item kind
passes `reportKind` (`graph[id]` panics when the id is missing from the
index). -/
def report_paths (s : GraphCache) (importable : AList CanonId String) :
    AList CanonId String → Except RErr (List String)
  | [] => .ok []
  | (id, path) :: rest =>
    if AList.contains importable id then report_paths s importable rest
    else
      match itemLookup s id.abs with
      | none => .error (.fatal "index panic: graph[id]")
      | some item =>
        match reportKind item.inner with
        | .error e => .error e
        | .ok true =>
          match report_paths s importable rest with
          | .ok l => .ok (path :: l)
          | .error e => .error e
        | .ok false => report_paths s importable rest

/-- Model of `main` (after CLI parsing): run the importable phase, run
the visible phase seeded with its output, filter, sort, and return the
lines printed to standard out. -/
def mainStdout (fuel : Nat) (env : Env) : Except RErr (List String) :=
  match bfs fuel link_importable none true (GraphCache.new env) with
  | .err _ e => .error e
  | .ok s₁ importable =>
    match bfs fuel link_visible (some importable) false s₁ with
    | .err _ e => .error e
    | .ok s₂ visible =>
      match report_paths s₂ importable visible with
      | .error e => .error e
      | .ok paths =>
        .ok ("visible but not importable:" ::
          (sortStrings paths).map (fun path => "- " ++ path))

/-! ## Concrete worlds used as witnesses.

World W: a root crate `w_root` with a public struct `Foo` (whose public
field has the private struct `Bar` as its type), a `pub use` of `Bar`
under the name `Baz`, and a public function `f` returning `T` from the
dependency crate `w_dep`. -/

def emptyGenerics : Generics := { params := [], where_predicates := [] }

def crateW_root : Crate :=
  { index :=
      [ (0, { name := some "w_root", visibility := .public,
              inner := .module { is_crate := true, items := [1, 2, 3, 4] } }),
        (1, { name := some "Foo", visibility := .public,
              inner := .struct_ { kind := .plain [5], generics := emptyGenerics,
                                  impls := [] } }),
        (2, { name := some "Bar", visibility := .default,
              inner := .struct_ { kind := .unit, generics := emptyGenerics,
                                  impls := [] } }),
        (3, { name := none, visibility := .public,
              inner := .use_ { source := "Bar", name := "Baz", target := some 2,
                               is_glob := false } }),
        (4, { name := some "f", visibility := .public,
              inner := .function { sig := .mk .nil (.some (.resolvedPath (.mk "T" 6 .none))),
                                   generics := emptyGenerics } }),
        (5, { name := some "bar", visibility := .public,
              inner := .structField (.resolvedPath (.mk "Bar" 2 .none)) }) ],
    paths := [(6, { crate_id := 1, path := ["w_dep", "T"] })],
    external_crates := [(1, { name := "w_dep" })] }

def crateW_dep : Crate :=
  { index :=
      [ (0, { name := some "w_dep", visibility := .public,
              inner := .module { is_crate := true, items := [1] } }),
        (1, { name := some "T", visibility := .public,
              inner := .struct_ { kind := .unit, generics := emptyGenerics,
                                  impls := [] } }) ],
    paths := [],
    external_crates := [] }

def envW : Env :=
  { build_rustdoc_json := fun name =>
      if name = "w_root" then .ok crateW_root
      else if name = "w_dep" then .ok crateW_dep
      else .error "unknown crate",
    root_package := .ok "w_root" }

/-- World G: a root crate `g_root` whose root module declares a struct
`Foo` and then glob-imports a module `m` that also declares a (distinct)
struct `Foo`. -/
def crateG : Crate :=
  { index :=
      [ (0, { name := some "g_root", visibility := .public,
              inner := .module { is_crate := true, items := [1, 2] } }),
        (1, { name := some "Foo", visibility := .public,
              inner := .struct_ { kind := .unit, generics := emptyGenerics,
                                  impls := [] } }),
        (2, { name := none, visibility := .public,
              inner := .use_ { source := "m", name := "", target := some 3,
                               is_glob := true } }),
        (3, { name := some "m", visibility := .public,
              inner := .module { is_crate := false, items := [4] } }),
        (4, { name := some "Foo", visibility := .public,
              inner := .struct_ { kind := .unit, generics := emptyGenerics,
                                  impls := [] } }) ],
    paths := [],
    external_crates := [] }

def envG : Env :=
  { build_rustdoc_json := fun name =>
      if name = "g_root" then .ok crateG else .error "unknown crate",
    root_package := .ok "g_root" }

/-- World F: a root crate `f_root` whose root module lists a child id
that appears neither in the index nor in the path summaries, so
resolving it fails. -/
def crateF : Crate :=
  { index :=
      [ (0, { name := some "f_root", visibility := .public,
              inner := .module { is_crate := true, items := [1] } }) ],
    paths := [],
    external_crates := [] }

def envF : Env :=
  { build_rustdoc_json := fun name =>
      if name = "f_root" then .ok crateF else .error "unknown crate",
    root_package := .ok "f_root" }

/-- State of world W after loading the root crate. -/
def sW1 : GraphCache :=
  { cli_args := envW, crate_lookup := [("w_root", 0)],
    crates := [{ rustdoc_json := crateW_root, root_module := 0,
                 resolve_cache := [], import_cache := [] }],
    stderr := [] }

/-- Importable map of world W (output of the first BFS phase). -/
def wImportable : AList CanonId String :=
  [(⟨⟨0, 0⟩⟩, "w_root"), (⟨⟨0, 1⟩⟩, "w_root::Foo"),
   (⟨⟨0, 2⟩⟩, "w_root::Baz"), (⟨⟨0, 4⟩⟩, "w_root::f")]

/-- State of world W after the first BFS phase. -/
def sW2 : GraphCache :=
  { cli_args := envW, crate_lookup := [("w_root", 0)],
    crates := [{ rustdoc_json := crateW_root, root_module := 0,
                 resolve_cache := [none, some (.id ⟨⟨0, 1⟩⟩), some (.id ⟨⟨0, 2⟩⟩),
                                   some (.id ⟨⟨0, 2⟩⟩), some (.id ⟨⟨0, 4⟩⟩)],
                 import_cache := [] }],
    stderr := [] }

/-- Visible map of world W (output of the second BFS phase). -/
def wVisible : AList CanonId String :=
  [(⟨⟨0, 0⟩⟩, "w_root"), (⟨⟨0, 1⟩⟩, "w_root::Foo"),
   (⟨⟨0, 2⟩⟩, "w_root::Baz"), (⟨⟨0, 4⟩⟩, "w_root::f"),
   (⟨⟨0, 5⟩⟩, "w_root::Foo::bar"), (⟨⟨1, 1⟩⟩, "w_root::f::T")]

/-- State of world W after the second BFS phase. -/
def sW3 : GraphCache :=
  { cli_args := envW, crate_lookup := [("w_root", 0), ("w_dep", 1)],
    crates := [{ rustdoc_json := crateW_root, root_module := 0,
                 resolve_cache := [none, some (.id ⟨⟨0, 1⟩⟩), some (.id ⟨⟨0, 2⟩⟩),
                                   some (.id ⟨⟨0, 2⟩⟩), some (.id ⟨⟨0, 4⟩⟩),
                                   some (.id ⟨⟨0, 5⟩⟩), some (.id ⟨⟨1, 1⟩⟩)],
                 import_cache := [] },
               { rustdoc_json := crateW_dep, root_module := 0,
                 resolve_cache := [none, some (.id ⟨⟨1, 1⟩⟩)],
                 import_cache := [some [("T", ⟨⟨1, 1⟩⟩)]] }],
    stderr := [] }

/-- State of world G after loading the root crate. -/
def sG1 : GraphCache :=
  { cli_args := envG, crate_lookup := [("g_root", 0)],
    crates := [{ rustdoc_json := crateG, root_module := 0,
                 resolve_cache := [], import_cache := [] }],
    stderr := [] }

/-- State of world F after loading the root crate. -/
def sF1 : GraphCache :=
  { cli_args := envF, crate_lookup := [("f_root", 0)],
    crates := [{ rustdoc_json := crateF, root_module := 0,
                 resolve_cache := [], import_cache := [] }],
    stderr := [] }

set_option maxHeartbeats 40000000 in
/-- Crate loading of world W, evaluated. -/
theorem resolve_crate_w_eval :
    resolve_crate "w_root" (GraphCache.new envW) = .ok sW1 ⟨⟨⟨0, 0⟩⟩⟩ := rfl

set_option maxHeartbeats 40000000 in
/-- First BFS phase of world W, evaluated. -/
theorem phase1W_eval :
    bfs 16 link_importable none true (GraphCache.new envW) = .ok sW2 wImportable := rfl

set_option maxHeartbeats 40000000 in
/-- Second BFS phase of world W, evaluated. -/
theorem phase2W_eval :
    bfs 16 link_visible (some wImportable) false sW2 = .ok sW3 wVisible := rfl

set_option maxHeartbeats 40000000 in
/-- Report filter of world W, evaluated. -/
theorem reportW_eval :
    report_paths sW3 wImportable wVisible = .ok ["w_root::f::T"] := rfl

set_option maxHeartbeats 40000000 in
/-- Crate loading of world G, evaluated. -/
theorem resolve_crate_g_eval :
    resolve_crate "g_root" (GraphCache.new envG) = .ok sG1 ⟨⟨⟨0, 0⟩⟩⟩ := rfl

set_option maxHeartbeats 40000000 in
/-- Namespace construction of world G's root module, evaluated: the
glob import occurring after the direct declaration of `Foo` overwrites
it. -/
theorem namespaceG_eval :
    (module_namespace_inner 16 ⟨⟨0, 0⟩⟩ sG1).val = .ok [("Foo", ⟨⟨0, 4⟩⟩)] := rfl

/-- Importable map of world G (output of the first BFS phase): the root
module and its glob use item carry the same label. -/
def gImportable : AList CanonId String :=
  [(⟨⟨0, 0⟩⟩, "g_root"), (⟨⟨0, 1⟩⟩, "g_root::Foo"), (⟨⟨0, 2⟩⟩, "g_root"),
   (⟨⟨0, 3⟩⟩, "g_root::m"), (⟨⟨0, 4⟩⟩, "g_root::m::Foo")]

set_option maxHeartbeats 40000000 in
/-- First BFS phase of world G, evaluated: the root module and its glob
use item receive the same label. -/
theorem phase1G_eval :
    (bfs 16 link_importable none true (GraphCache.new envG)).val =
    .ok gImportable := rfl

/-- State of world W after resolving the `pub use` item from `sW1`. -/
def sW1b : GraphCache :=
  { cli_args := envW, crate_lookup := [("w_root", 0)],
    crates := [{ rustdoc_json := crateW_root, root_module := 0,
                 resolve_cache := [none, none, some (.id ⟨⟨0, 2⟩⟩),
                                   some (.id ⟨⟨0, 2⟩⟩)],
                 import_cache := [] }],
    stderr := [] }

set_option maxHeartbeats 40000000 in
/-- Resolution through the `pub use` item of world W, evaluated. -/
theorem resolveW_use_eval : resolve 8 ⟨0, 3⟩ true sW1 = .ok sW1b ⟨⟨0, 2⟩⟩ := rfl

/-- State of world W after additionally loading the dependency crate
from `sW1`. -/
def sW1d : GraphCache :=
  { cli_args := envW, crate_lookup := [("w_root", 0), ("w_dep", 1)],
    crates := [{ rustdoc_json := crateW_root, root_module := 0,
                 resolve_cache := [], import_cache := [] },
               { rustdoc_json := crateW_dep, root_module := 0,
                 resolve_cache := [], import_cache := [] }],
    stderr := [] }

set_option maxHeartbeats 40000000 in
/-- Loading the dependency crate of world W, evaluated. -/
theorem resolve_crate_w_dep_eval :
    resolve_crate "w_dep" sW1 = .ok sW1d ⟨⟨⟨1, 0⟩⟩⟩ := rfl

/-- State of world W after resolving the path `w_dep::T` from `sW1d`. -/
def sW1e : GraphCache :=
  { cli_args := envW, crate_lookup := [("w_root", 0), ("w_dep", 1)],
    crates := [{ rustdoc_json := crateW_root, root_module := 0,
                 resolve_cache := [], import_cache := [] },
               { rustdoc_json := crateW_dep, root_module := 0,
                 resolve_cache := [none, some (.id ⟨⟨1, 1⟩⟩)],
                 import_cache := [some [("T", ⟨⟨1, 1⟩⟩)]] }],
    stderr := [] }

set_option maxHeartbeats 40000000 in
/-- Path resolution of `T` in the dependency crate of world W,
evaluated. -/
theorem resolve_path_w_eval :
    resolve_path 8 ⟨⟨⟨1, 0⟩⟩⟩ ["T"] sW1d = .ok sW1e ⟨⟨1, 1⟩⟩ := rfl

set_option maxHeartbeats 40000000 in
/-- Failing child resolution of world F, evaluated (the id is neither in
the index nor in the path summaries). -/
theorem resolveF_fail_eval :
    resolve_inner 8 ⟨0, 1⟩ true sF1 =
    .err sF1 (.fail "Rustdoc JSON id neither in expected index or paths") := rfl

/-- State of world F after the failed (cached-level) resolution: the
cache vector has only been grown with `None` padding. -/
def sF2 : GraphCache :=
  { cli_args := envF, crate_lookup := [("f_root", 0)],
    crates := [{ rustdoc_json := crateF, root_module := 0,
                 resolve_cache := [none, none], import_cache := [] }],
    stderr := [] }

set_option maxHeartbeats 40000000 in
/-- Failing resolution of world F at the caching level, evaluated. -/
theorem resolveF_fail_eval2 :
    resolve 8 ⟨0, 1⟩ true sF1 =
    .err sF2 (.fail "Rustdoc JSON id neither in expected index or paths") := rfl

/-- State of world G after resolving the direct child `Foo` (item 1)
from `sG1`. -/
def sG1b : GraphCache :=
  { cli_args := envG, crate_lookup := [("g_root", 0)],
    crates := [{ rustdoc_json := crateG, root_module := 0,
                 resolve_cache := [none, some (.id ⟨⟨0, 1⟩⟩)],
                 import_cache := [] }],
    stderr := [] }

set_option maxHeartbeats 40000000 in
/-- Resolution of world G's direct child `Foo`, evaluated. -/
theorem resolveG_foo_eval :
    resolve 8 ⟨0, 1⟩ false sG1 = .ok sG1b ⟨⟨0, 1⟩⟩ := rfl

/-- State of world G after resolving the glob use item (item 2) from
`sG1`. -/
def sG1c : GraphCache :=
  { cli_args := envG, crate_lookup := [("g_root", 0)],
    crates := [{ rustdoc_json := crateG, root_module := 0,
                 resolve_cache := [none, none, some (.id ⟨⟨0, 2⟩⟩)],
                 import_cache := [] }],
    stderr := [] }

set_option maxHeartbeats 40000000 in
/-- Resolution of world G's glob use item, evaluated (a glob use is its
own canonical referent). -/
theorem resolveG_glob_eval :
    resolve 8 ⟨0, 2⟩ true sG1 = .ok sG1c ⟨⟨0, 2⟩⟩ := rfl

/-! ## Association list lemmas. -/

theorem AList.lookup_insert {κ α : Type} [DecidableEq κ] (m : AList κ α) (k : κ) (v : α) :
    AList.lookup (AList.insert m k v) k = some v := by
  induction m with
  | nil => simp [AList.insert, AList.lookup]
  | cons p rest ih =>
    obtain ⟨k', v'⟩ := p
    by_cases h : k' = k
    · subst h
      simp [AList.insert, AList.lookup]
    · have h' : ¬ k = k' := fun hh => h hh.symm
      simp [AList.insert, AList.lookup, h, h', ih]

theorem AList.lookup_insert_ne {κ α : Type} [DecidableEq κ] (m : AList κ α) (k k' : κ)
    (v : α) (h : k' ≠ k) : AList.lookup (AList.insert m k v) k' = AList.lookup m k' := by
  induction m with
  | nil => simp [AList.insert, AList.lookup, h]
  | cons p rest ih =>
    obtain ⟨k₀, v₀⟩ := p
    by_cases h₀ : k₀ = k
    · subst h₀
      simp [AList.insert, AList.lookup, h]
    · simp only [AList.insert, if_neg h₀, AList.lookup]
      by_cases h₁ : k' = k₀ <;> simp [h₁, ih]

theorem AList.contains_insert {κ α : Type} [DecidableEq κ] (m : AList κ α) (j k : κ)
    (v : α) (h : AList.contains m j = true) : AList.contains (AList.insert m k v) j = true := by
  by_cases hk : j = k
  · subst hk
    simp [AList.contains, AList.lookup_insert]
  · simpa [AList.contains, AList.lookup_insert_ne m k j v hk] using h

theorem AList.mem_insert {κ α : Type} [DecidableEq κ] (m : AList κ α) (k : κ) (v : α)
    (p : κ × α) (h : p ∈ AList.insert m k v) : p = (k, v) ∨ p ∈ m := by
  induction m with
  | nil => exact .inl (by simpa [AList.insert] using h)
  | cons q rest ih =>
    obtain ⟨k₀, v₀⟩ := q
    by_cases h₀ : k₀ = k
    · subst h₀
      simp only [AList.insert, if_pos rfl] at h
      rcases List.mem_cons.mp h with h | h
      · exact .inl h
      · exact .inr (List.mem_cons_of_mem _ h)
    · simp only [AList.insert, if_neg h₀] at h
      rcases List.mem_cons.mp h with h | h
      · exact .inr (h ▸ List.mem_cons_self _ _)
      · rcases ih h with h | h
        · exact .inl h
        · exact .inr (List.mem_cons_of_mem _ h)

theorem AList.lookup_mem {κ α : Type} [DecidableEq κ] (m : AList κ α) (k : κ) (v : α)
    (h : AList.lookup m k = some v) : (k, v) ∈ m := by
  induction m with
  | nil => simp [AList.lookup] at h
  | cons q rest ih =>
    obtain ⟨k₀, v₀⟩ := q
    by_cases h₀ : k = k₀
    · subst h₀
      simp [AList.lookup] at h
      subst h
      exact List.mem_cons_self _ _
    · rw [AList.lookup, if_neg h₀] at h
      exact List.mem_cons_of_mem _ (ih h)

theorem AList.mem_extendWith {κ α : Type} [DecidableEq κ] (m other : AList κ α)
    (p : κ × α) (h : p ∈ AList.extendWith m other) : p ∈ m ∨ p ∈ other := by
  induction other generalizing m with
  | nil => exact .inl h
  | cons q rest ih =>
    have h' : p ∈ AList.extendWith (AList.insert m q.1 q.2) rest := h
    rcases ih _ h' with h | h
    · rcases AList.mem_insert m q.1 q.2 p h with h | h
      · exact .inr (h ▸ List.mem_cons_self _ _)
      · exact .inl h
    · exact .inr (List.mem_cons_of_mem _ h)

/-! ## Dense cache vector lemmas. -/

theorem padTo_join {α : Type} (l : List (Option α)) (i j : Nat) :
    ((padTo l i)[j]?).join = (l[j]?).join := by
  unfold padTo
  rw [List.getElem?_append]
  rcases lt_or_ge j l.length with h | h
  · simp [h]
  · rw [if_neg (Nat.not_lt.mpr h)]
    have hn : l[j]? = none := by
      rw [List.getElem?_eq_none_iff]
      exact h
    rw [hn]
    simp [List.getElem?_replicate]

theorem padTo_length_gt {α : Type} (l : List (Option α)) (i : Nat) :
    i < (padTo l i).length := by
  unfold padTo
  simp only [List.length_append, List.length_replicate]
  omega

theorem setSlot_self {α : Type} (l : List (Option α)) (i : Nat) (v : α) :
    (setSlot l i v)[i]? = some (some v) := by
  unfold setSlot
  rw [List.getElem?_set_self' ]
  simp [padTo_length_gt]

theorem setSlot_ne {α : Type} (l : List (Option α)) (i j : Nat) (v : α) (h : j ≠ i) :
    ((setSlot l i v)[j]?).join = (l[j]?).join := by
  unfold setSlot
  rw [List.getElem?_set_ne (fun h' => h h'.symm)]
  exact padTo_join l i j

/-! ## State extension, canonical-kind goodness, and the resolver
invariant. -/

/-- Check that a canonical id refers to an item in the registry whose
kind is canonical (neither `ExternCrate` nor a non-glob `Use`). -/
def goodCanon (s : GraphCache) (c : CanonId) : Bool :=
  match itemLookup s c.abs with
  | some item => !isBadKind item.inner
  | none => false

/-- One state extends another when every loaded crate is still loaded
with the same (immutable) rustdoc JSON and root module; only caches,
the crate list's tail, and the stderr stream may differ. -/
def Extends (s s' : GraphCache) : Prop :=
  ∀ (i : Nat) (e : CrateEntry), s.crates[i]? = some e →
    ∃ e' : CrateEntry, s'.crates[i]? = some e' ∧
      e'.rustdoc_json = e.rustdoc_json ∧ e'.root_module = e.root_module

theorem Extends.refl (s : GraphCache) : Extends s s :=
  fun _ e h => ⟨e, h, rfl, rfl⟩

theorem Extends.trans {s₁ s₂ s₃ : GraphCache} (h₁ : Extends s₁ s₂)
    (h₂ : Extends s₂ s₃) : Extends s₁ s₃ := by
  intro i e h
  obtain ⟨e', h', hdoc, hroot⟩ := h₁ i e h
  obtain ⟨e'', h'', hdoc', hroot'⟩ := h₂ i e' h'
  exact ⟨e'', h'', hdoc'.trans hdoc, hroot'.trans hroot⟩

theorem itemLookup_mono {s s' : GraphCache} (h : Extends s s') (id : AbsId)
    (item : Item) (hit : itemLookup s id = some item) :
    itemLookup s' id = some item := by
  unfold itemLookup at hit ⊢
  cases hcr : s.crates[id.crate_idx]? with
  | none => rw [hcr] at hit; exact absurd hit (by simp)
  | some e =>
    rw [hcr] at hit
    obtain ⟨e', h', hdoc, _⟩ := h _ _ hcr
    rw [h']
    show AList.lookup e'.rustdoc_json.index id.item_id = some item
    rw [hdoc]
    exact hit

theorem goodCanon_mono {s s' : GraphCache} (h : Extends s s') (c : CanonId)
    (hg : goodCanon s c = true) : goodCanon s' c = true := by
  unfold goodCanon at hg ⊢
  cases hit : itemLookup s c.abs with
  | none => rw [hit] at hg; exact absurd hg (by simp)
  | some item =>
    rw [hit] at hg
    rw [itemLookup_mono h c.abs item hit]
    exact hg

/-- The resolver invariant: every cached resolution points at a good
canonical id; a good id's cache slot can only hold the id itself; and
every cached namespace maps names to good canonical ids. -/
structure RInv (s : GraphCache) : Prop where
  cacheGood : ∀ (id : AbsId) (c : CanonId),
    slotLookup s id = some (.id c) → goodCanon s c = true
  cacheSelf : ∀ id : AbsId, goodCanon s ⟨id⟩ = true →
    slotLookup s id = none ∨ slotLookup s id = some (.id ⟨id⟩)
  nsGood : ∀ (id : CanonId) (ns : AList String CanonId),
    importLookup s id = some ns → ∀ p ∈ ns, goodCanon s p.2 = true

/-! Lemmas about cache-only crate updates: they change no item lookup,
no goodness, and extend the state. -/

theorem crates_update_self {s : GraphCache} {idx : Nat} {e : CrateEntry}
    (e' : CrateEntry) (h : s.crates[idx]? = some e) :
    (updateCrate s idx e').crates[idx]? = some e' := by
  unfold updateCrate
  simp only
  rw [List.getElem?_set_self']
  have : idx < s.crates.length := by
    rcases List.getElem?_eq_some_iff.mp h with ⟨hl, _⟩
    exact hl
  simp [this]

theorem crates_update_ne {s : GraphCache} {idx : Nat} (e' : CrateEntry) (i : Nat)
    (h : i ≠ idx) : (updateCrate s idx e').crates[i]? = s.crates[i]? := by
  unfold updateCrate
  simp only
  rw [List.getElem?_set_ne (fun h' => h h'.symm)]

theorem itemLookup_updateCache {s : GraphCache} {idx : Nat} {e e' : CrateEntry}
    (h : s.crates[idx]? = some e) (hdoc : e'.rustdoc_json = e.rustdoc_json)
    (id : AbsId) :
    itemLookup (updateCrate s idx e') id = itemLookup s id := by
  unfold itemLookup
  by_cases hc : id.crate_idx = idx
  · rw [hc, crates_update_self e' h, h]
    show AList.lookup e'.rustdoc_json.index id.item_id =
      AList.lookup e.rustdoc_json.index id.item_id
    rw [hdoc]
  · rw [crates_update_ne e' _ hc]

theorem goodCanon_updateCache {s : GraphCache} {idx : Nat} {e e' : CrateEntry}
    (h : s.crates[idx]? = some e) (hdoc : e'.rustdoc_json = e.rustdoc_json)
    (c : CanonId) :
    goodCanon (updateCrate s idx e') c = goodCanon s c := by
  unfold goodCanon
  rw [itemLookup_updateCache h hdoc]

theorem extends_updateCache {s : GraphCache} {idx : Nat} {e e' : CrateEntry}
    (h : s.crates[idx]? = some e) (hdoc : e'.rustdoc_json = e.rustdoc_json)
    (hroot : e'.root_module = e.root_module) :
    Extends s (updateCrate s idx e') := by
  intro i e₀ h₀
  by_cases hc : i = idx
  · subst hc
    rw [h₀] at h
    cases h
    exact ⟨e', crates_update_self e' h₀, hdoc, hroot⟩
  · exact ⟨e₀, (crates_update_ne e' i hc).trans h₀, rfl, rfl⟩

theorem slotLookup_update_rc_self {s : GraphCache} {idx : Nat} {e : CrateEntry}
    (h : s.crates[idx]? = some e) (iid : RId) (v : ResolveCacheEntry) :
    slotLookup (updateCrate s idx { e with resolve_cache := setSlot e.resolve_cache iid v })
      ⟨idx, iid⟩ = some v := by
  unfold slotLookup
  rw [crates_update_self _ h]
  simp [setSlot_self]

theorem slotLookup_update_rc_ne {s : GraphCache} {idx : Nat} {e : CrateEntry}
    (h : s.crates[idx]? = some e) (iid : RId) (v : ResolveCacheEntry)
    (id : AbsId) (hne : id ≠ ⟨idx, iid⟩) :
    slotLookup (updateCrate s idx { e with resolve_cache := setSlot e.resolve_cache iid v })
      id = slotLookup s id := by
  unfold slotLookup
  by_cases hc : id.crate_idx = idx
  · rw [hc, crates_update_self _ h, h]
    simp only
    have hj : id.item_id ≠ iid := by
      intro hj
      exact hne (by cases id; simp_all)
    exact setSlot_ne e.resolve_cache iid id.item_id v hj
  · rw [crates_update_ne _ _ hc]

theorem slotLookup_update_rc_pad {s : GraphCache} {idx : Nat} {e : CrateEntry}
    (h : s.crates[idx]? = some e) (iid : RId) (id : AbsId) :
    slotLookup (updateCrate s idx { e with resolve_cache := padTo e.resolve_cache iid })
      id = slotLookup s id := by
  unfold slotLookup
  by_cases hc : id.crate_idx = idx
  · rw [hc, crates_update_self _ h, h]
    simp only
    exact padTo_join e.resolve_cache iid id.item_id
  · rw [crates_update_ne _ _ hc]

theorem importLookup_update_rc {s : GraphCache} {idx : Nat} {e : CrateEntry}
    (h : s.crates[idx]? = some e) (rc : List (Option ResolveCacheEntry)) (c : CanonId) :
    importLookup (updateCrate s idx { e with resolve_cache := rc }) c =
      importLookup s c := by
  unfold importLookup
  by_cases hc : c.abs.crate_idx = idx
  · rw [hc, crates_update_self _ h, h]
  · rw [crates_update_ne _ _ hc]

theorem slotLookup_update_ic {s : GraphCache} {idx : Nat} {e : CrateEntry}
    (h : s.crates[idx]? = some e) (ic : List (Option (AList String CanonId)))
    (id : AbsId) :
    slotLookup (updateCrate s idx { e with import_cache := ic }) id =
      slotLookup s id := by
  unfold slotLookup
  by_cases hc : id.crate_idx = idx
  · rw [hc, crates_update_self _ h, h]
  · rw [crates_update_ne _ _ hc]

theorem importLookup_update_ic_self {s : GraphCache} {idx : Nat} {e : CrateEntry}
    (h : s.crates[idx]? = some e) (iid : RId) (ns : AList String CanonId) :
    importLookup (updateCrate s idx { e with import_cache := setSlot e.import_cache iid ns })
      ⟨⟨idx, iid⟩⟩ = some ns := by
  unfold importLookup
  rw [crates_update_self _ h]
  simp [setSlot_self]

theorem importLookup_update_ic_ne {s : GraphCache} {idx : Nat} {e : CrateEntry}
    (h : s.crates[idx]? = some e) (iid : RId) (ns : AList String CanonId)
    (c : CanonId) (hne : c ≠ ⟨⟨idx, iid⟩⟩) :
    importLookup (updateCrate s idx { e with import_cache := setSlot e.import_cache iid ns })
      c = importLookup s c := by
  unfold importLookup
  by_cases hc : c.abs.crate_idx = idx
  · rw [hc, crates_update_self _ h, h]
    simp only
    have hj : c.abs.item_id ≠ iid := by
      intro hj
      exact hne (by cases c with | mk a => cases a; simp_all)
    exact setSlot_ne e.import_cache iid c.abs.item_id ns hj
  · rw [crates_update_ne _ _ hc]

/-- Writing a `Resolved` or `Ignored` outcome into the resolve cache
preserves the invariant, provided a written id is good and a good input
id is only ever mapped to itself. -/
theorem inv_write_slot {s : GraphCache} {idx : Nat} {e : CrateEntry}
    (hs : RInv s) (h : s.crates[idx]? = some e) (iid : RId) (v : ResolveCacheEntry)
    (hv : ∀ c, v = .id c → goodCanon s c = true)
    (hself : goodCanon s ⟨⟨idx, iid⟩⟩ = true → v = .id ⟨⟨idx, iid⟩⟩) :
    RInv (updateCrate s idx { e with resolve_cache := setSlot e.resolve_cache iid v }) := by
  have hdoc : ({ e with resolve_cache := setSlot e.resolve_cache iid v }).rustdoc_json
      = e.rustdoc_json := rfl
  constructor
  · intro id c hslot
    rw [goodCanon_updateCache h hdoc]
    by_cases hid : id = (⟨idx, iid⟩ : AbsId)
    · subst hid
      rw [slotLookup_update_rc_self h iid v] at hslot
      cases hslot
      exact hv c rfl
    · rw [slotLookup_update_rc_ne h iid v id hid] at hslot
      exact hs.cacheGood id c hslot
  · intro id hg
    rw [goodCanon_updateCache h hdoc] at hg
    by_cases hid : id = (⟨idx, iid⟩ : AbsId)
    · subst hid
      rw [slotLookup_update_rc_self h iid v]
      exact .inr (by rw [hself hg])
    · rw [slotLookup_update_rc_ne h iid v id hid]
      exact hs.cacheSelf id hg
  · intro id ns hns p hp
    rw [goodCanon_updateCache h hdoc]
    rw [importLookup_update_rc h _ id] at hns
    exact hs.nsGood id ns hns p hp

/-- Padding the resolve cache (the failure path of `resolve`) preserves
the invariant. -/
theorem inv_pad_slot {s : GraphCache} {idx : Nat} {e : CrateEntry}
    (hs : RInv s) (h : s.crates[idx]? = some e) (iid : RId) :
    RInv (updateCrate s idx { e with resolve_cache := padTo e.resolve_cache iid }) := by
  have hdoc : ({ e with resolve_cache := padTo e.resolve_cache iid }).rustdoc_json
      = e.rustdoc_json := rfl
  constructor
  · intro id c hslot
    rw [goodCanon_updateCache h hdoc]
    rw [slotLookup_update_rc_pad h iid id] at hslot
    exact hs.cacheGood id c hslot
  · intro id hg
    rw [goodCanon_updateCache h hdoc] at hg
    rw [slotLookup_update_rc_pad h iid id]
    exact hs.cacheSelf id hg
  · intro id ns hns p hp
    rw [goodCanon_updateCache h hdoc]
    rw [importLookup_update_rc h _ id] at hns
    exact hs.nsGood id ns hns p hp

/-- Writing a namespace of good ids into the import cache preserves the
invariant. -/
theorem inv_write_ns {s : GraphCache} {idx : Nat} {e : CrateEntry}
    (hs : RInv s) (h : s.crates[idx]? = some e) (iid : RId) (ns : AList String CanonId)
    (hns : ∀ p ∈ ns, goodCanon s p.2 = true) :
    RInv (updateCrate s idx { e with import_cache := setSlot e.import_cache iid ns }) := by
  have hdoc : ({ e with import_cache := setSlot e.import_cache iid ns }).rustdoc_json
      = e.rustdoc_json := rfl
  constructor
  · intro id c hslot
    rw [goodCanon_updateCache h hdoc]
    rw [slotLookup_update_ic h _ id] at hslot
    exact hs.cacheGood id c hslot
  · intro id hg
    rw [goodCanon_updateCache h hdoc] at hg
    rw [slotLookup_update_ic h _ id]
    exact hs.cacheSelf id hg
  · intro id ns₀ hns₀ p hp
    rw [goodCanon_updateCache h hdoc]
    by_cases hid : id = (⟨⟨idx, iid⟩⟩ : CanonId)
    · subst hid
      rw [importLookup_update_ic_self h iid ns] at hns₀
      cases hns₀
      exact hns p hp
    · rw [importLookup_update_ic_ne h iid ns id hid] at hns₀
      exact hs.nsGood id ns₀ hns₀ p hp

/-! ## Soundness of `canon_id`, `module_id` and `resolve_crate`. -/

theorem canon_id_ok {s : GraphCache} {id : AbsId} {c : CanonId}
    (h : canon_id s id = .ok c) : c = ⟨id⟩ ∧ goodCanon s ⟨id⟩ = true := by
  unfold canon_id at h
  cases hit : itemLookup s id with
  | none => rw [hit] at h; exact absurd h (by simp)
  | some item =>
    rw [hit] at h
    dsimp only at h
    by_cases hb : isBadKind item.inner
    · rw [if_pos hb] at h
      exact absurd h (by simp)
    · rw [if_neg hb] at h
      cases h
      refine ⟨rfl, ?_⟩
      unfold goodCanon
      rw [hit]
      simp [hb]

theorem module_id_ok {s : GraphCache} {id : AbsId} {m : ModuleId}
    (h : module_id s id = .ok m) : m.canon = ⟨id⟩ ∧ goodCanon s ⟨id⟩ = true := by
  unfold module_id at h
  cases hc : canon_id s id with
  | error e => rw [hc] at h; exact absurd h (by simp)
  | ok c =>
    rw [hc] at h
    dsimp only at h
    obtain ⟨hcid, hg⟩ := canon_id_ok hc
    subst hcid
    cases hit : itemLookup s id with
    | none =>
      rw [show itemLookup s (⟨id⟩ : CanonId).abs = itemLookup s id from rfl, hit] at h
      exact absurd h (by simp)
    | some item =>
      rw [show itemLookup s (⟨id⟩ : CanonId).abs = itemLookup s id from rfl, hit] at h
      dsimp only at h
      by_cases hm : isModule item.inner
      · rw [if_pos hm] at h
        cases h
        exact ⟨rfl, hg⟩
      · rw [if_neg hm] at h
        exact absurd h (by simp)

/-- Result specification for canonical-id-valued calls: the invariant is
preserved, the state extends, and a successful value is good. -/
def okCanon (s : GraphCache) (r : MRes CanonId) : Prop :=
  match r with
  | .ok s' c => RInv s' ∧ Extends s s' ∧ goodCanon s' c = true
  | .err s' _ => RInv s' ∧ Extends s s'

/-- Result specification for module-id-valued calls. -/
def okModule (s : GraphCache) (r : MRes ModuleId) : Prop :=
  match r with
  | .ok s' m => RInv s' ∧ Extends s s' ∧ goodCanon s' m.canon = true
  | .err s' _ => RInv s' ∧ Extends s s'

/-- Result specification for namespace-valued calls. -/
def okNs (s : GraphCache) (r : MRes (AList String CanonId)) : Prop :=
  match r with
  | .ok s' ns => RInv s' ∧ Extends s s' ∧ ∀ p ∈ ns, goodCanon s' p.2 = true
  | .err s' _ => RInv s' ∧ Extends s s'

theorem getElem?_append_lt {α : Type} (l : List α) (x : α) (i : Nat)
    (h : i < l.length) : (l ++ [x])[i]? = l[i]? := by
  rw [List.getElem?_append]
  simp [h]

theorem extends_append (s : GraphCache) (ne : CrateEntry) (lk : AList String Nat) :
    Extends s { s with crates := s.crates ++ [ne], crate_lookup := lk } := by
  intro i e h
  refine ⟨e, ?_, rfl, rfl⟩
  show (s.crates ++ [ne])[i]? = some e
  rw [getElem?_append_lt _ _ _ (List.getElem?_eq_some_iff.mp h).1]
  exact h

theorem slotLookup_append {s : GraphCache} (ne : CrateEntry) (lk : AList String Nat)
    (hrc : ne.resolve_cache = []) (id : AbsId) :
    slotLookup { s with crates := s.crates ++ [ne], crate_lookup := lk } id =
      slotLookup s id := by
  unfold slotLookup
  simp only
  rcases lt_or_ge id.crate_idx s.crates.length with h | h
  · rw [getElem?_append_lt _ _ _ h]
  · have h0 : s.crates[id.crate_idx]? = none := List.getElem?_eq_none_iff.mpr h
    rw [h0]
    rcases eq_or_lt_of_le h with h1 | h1
    · rw [← h1, List.getElem?_concat_length]
      simp [hrc]
    · have hnone : (s.crates ++ [ne])[id.crate_idx]? = none := by
        rw [List.getElem?_eq_none_iff]
        simp only [List.length_append, List.length_cons, List.length_nil]
        omega
      rw [hnone]

theorem importLookup_append {s : GraphCache} (ne : CrateEntry) (lk : AList String Nat)
    (hic : ne.import_cache = []) (id : CanonId) :
    importLookup { s with crates := s.crates ++ [ne], crate_lookup := lk } id =
      importLookup s id := by
  unfold importLookup
  simp only
  rcases lt_or_ge id.abs.crate_idx s.crates.length with h | h
  · rw [getElem?_append_lt _ _ _ h]
  · have h0 : s.crates[id.abs.crate_idx]? = none := List.getElem?_eq_none_iff.mpr h
    rw [h0]
    rcases eq_or_lt_of_le h with h1 | h1
    · rw [← h1, List.getElem?_concat_length]
      simp [hic]
    · have hnone : (s.crates ++ [ne])[id.abs.crate_idx]? = none := by
        rw [List.getElem?_eq_none_iff]
        simp only [List.length_append, List.length_cons, List.length_nil]
        omega
      rw [hnone]

theorem goodCanon_append_lt {s : GraphCache} (ne : CrateEntry) (lk : AList String Nat)
    (c : CanonId) (h : c.abs.crate_idx < s.crates.length) :
    goodCanon { s with crates := s.crates ++ [ne], crate_lookup := lk } c =
      goodCanon s c := by
  unfold goodCanon itemLookup
  simp only
  rw [getElem?_append_lt _ _ _ h]

theorem inv_append {s : GraphCache} (hs : RInv s) (ne : CrateEntry)
    (lk : AList String Nat) (hrc : ne.resolve_cache = [])
    (hic : ne.import_cache = []) :
    RInv { s with crates := s.crates ++ [ne], crate_lookup := lk } := by
  have hext : Extends s { s with crates := s.crates ++ [ne], crate_lookup := lk } :=
    extends_append s ne lk
  constructor
  · intro id c hslot
    rw [slotLookup_append ne lk hrc id] at hslot
    exact goodCanon_mono hext c (hs.cacheGood id c hslot)
  · intro id hg
    rw [slotLookup_append ne lk hrc id]
    rcases lt_or_ge id.crate_idx s.crates.length with h | h
    · rw [goodCanon_append_lt ne lk ⟨id⟩ h] at hg
      exact hs.cacheSelf id hg
    · left
      unfold slotLookup
      rw [List.getElem?_eq_none_iff.mpr h]
  · intro id ns hns p hp
    rw [importLookup_append ne lk hic id] at hns
    exact goodCanon_mono hext p.2 (hs.nsGood id ns hns p hp)

theorem resolve_crate_sound (crate_name : String) (s : GraphCache) (hs : RInv s) :
    okModule s (resolve_crate crate_name s) := by
  unfold resolve_crate
  by_cases hstd : STDLIBS.contains
      (if crate_name = "webpki" then "rustls_webpki" else crate_name)
  · rw [if_pos hstd]
    exact ⟨hs, Extends.refl s⟩
  · rw [if_neg hstd]
    cases hlk : AList.lookup s.crate_lookup
        (if crate_name = "webpki" then "rustls_webpki" else crate_name) with
    | some crate_idx =>
      simp only
      cases hce : s.crates[crate_idx]? with
      | none => exact ⟨hs, Extends.refl s⟩
      | some entry =>
        simp only
        cases hm : module_id s ⟨crate_idx, entry.root_module⟩ with
        | ok m =>
          obtain ⟨_, hg⟩ := module_id_ok hm
          refine ⟨hs, Extends.refl s, ?_⟩
          rw [(module_id_ok hm).1]
          exact hg
        | error e => exact ⟨hs, Extends.refl s⟩
    | none =>
      simp only
      cases hb : s.cli_args.build_rustdoc_json
          (if crate_name = "webpki" then "rustls_webpki" else crate_name) with
      | error e => exact ⟨hs, Extends.refl s⟩
      | ok rustdoc_json =>
        simp only
        cases hfr : findRootModule rustdoc_json.index with
        | none => exact ⟨hs, Extends.refl s⟩
        | some root_module =>
          simp only
          have hinv' := inv_append hs
            { rustdoc_json := rustdoc_json, root_module := root_module,
              resolve_cache := [], import_cache := [] }
            (AList.insert s.crate_lookup
              (if crate_name = "webpki" then "rustls_webpki" else crate_name)
              s.crates.length) rfl rfl
          have hext' := extends_append s
            { rustdoc_json := rustdoc_json, root_module := root_module,
              resolve_cache := [], import_cache := [] }
            (AList.insert s.crate_lookup
              (if crate_name = "webpki" then "rustls_webpki" else crate_name)
              s.crates.length)
          cases hm : module_id
              { s with
                crates := s.crates ++
                  [{ rustdoc_json := rustdoc_json, root_module := root_module,
                     resolve_cache := [], import_cache := [] }],
                crate_lookup := AList.insert s.crate_lookup
                  (if crate_name = "webpki" then "rustls_webpki" else crate_name)
                  s.crates.length }
              ⟨s.crates.length, root_module⟩ with
          | ok m =>
            refine ⟨hinv', hext', ?_⟩
            rw [(module_id_ok hm).1]
            exact (module_id_ok hm).2
          | error e => exact ⟨hinv', hext'⟩

/-- On a good id whose cache slot is empty, `resolve_inner` hits the
base case ("already canonical") and returns the id itself without
touching the state. -/
theorem resolve_inner_good (n : Nat) (id : AbsId) (fp : Bool) {s : GraphCache}
    (hg : goodCanon s ⟨id⟩ = true) (hmiss : slotLookup s id = none) :
    resolve_inner (n+1) id fp s = .ok s ⟨id⟩ := by
  unfold goodCanon at hg
  rw [show (⟨id⟩ : CanonId).abs = id from rfl] at hg
  unfold itemLookup at hg
  cases hcr : s.crates[id.crate_idx]? with
  | none => rw [hcr] at hg; simp at hg
  | some entry =>
    rw [hcr] at hg
    dsimp only at hg
    cases hit : AList.lookup entry.rustdoc_json.index id.item_id with
    | none => rw [hit] at hg; simp at hg
    | some item =>
      rw [hit] at hg
      dsimp only at hg
      unfold slotLookup at hmiss
      rw [hcr] at hmiss
      dsimp only at hmiss
      have hcanon : canon_id s id = .ok ⟨id⟩ := by
        unfold canon_id itemLookup
        rw [hcr]
        dsimp only
        rw [hit]
        dsimp only
        rw [if_neg (by simpa using hg)]
      unfold resolve_inner
      rw [hcr]
      dsimp only
      rw [hmiss]
      dsimp only
      rw [hit]
      dsimp only
      cases hk : item.inner with
      | externCrate name rename => rw [hk] at hg; simp [isBadKind] at hg
      | use_ u =>
        rw [hk] at hg
        obtain ⟨source, uname, target, is_glob⟩ := u
        simp only [isBadKind, Bool.not_not] at hg
        cases is_glob with
        | false => simp at hg
        | true =>
          cases target with
          | none => dsimp only; rw [hcanon]
          | some t => dsimp only; rw [hcanon]
      | module m => dsimp only; rw [hcanon]
      | union_ u => dsimp only; rw [hcanon]
      | struct_ st => dsimp only; rw [hcanon]
      | structField t => dsimp only; rw [hcanon]
      | enum_ e => dsimp only; rw [hcanon]
      | variant v => dsimp only; rw [hcanon]
      | function f => dsimp only; rw [hcanon]
      | trait_ t => dsimp only; rw [hcanon]
      | traitAlias => dsimp only; rw [hcanon]
      | impl_ i => dsimp only; rw [hcanon]
      | typeAlias t => dsimp only; rw [hcanon]
      | constant t => dsimp only; rw [hcanon]
      | staticItem st => dsimp only; rw [hcanon]
      | externType => dsimp only; rw [hcanon]
      | macroDecl => dsimp only; rw [hcanon]
      | procMacroDecl => dsimp only; rw [hcanon]
      | primitive => dsimp only; rw [hcanon]
      | assocConst t => dsimp only; rw [hcanon]
      | assocType g b t => dsimp only; rw [hcanon]

theorem okCanon_trans {s s₁ : GraphCache} (h : Extends s s₁) {r : MRes CanonId}
    (hr : okCanon s₁ r) : okCanon s r := by
  cases r with
  | ok s₂ c => exact ⟨hr.1, h.trans hr.2.1, hr.2.2⟩
  | err s₂ e => exact ⟨hr.1, h.trans hr.2⟩

theorem okNs_trans {s s₁ : GraphCache} (h : Extends s s₁)
    {r : MRes (AList String CanonId)} (hr : okNs s₁ r) : okNs s r := by
  cases r with
  | ok s₂ ns => exact ⟨hr.1, h.trans hr.2.1, hr.2.2⟩
  | err s₂ e => exact ⟨hr.1, h.trans hr.2⟩

theorem goodCanon_eq_of_doc {s s₁ : GraphCache} {entry e₁ : CrateEntry} {id : AbsId}
    (hcr : s.crates[id.crate_idx]? = some entry)
    (he₁ : s₁.crates[id.crate_idx]? = some e₁)
    (hdoc : e₁.rustdoc_json = entry.rustdoc_json) :
    goodCanon s₁ ⟨id⟩ = goodCanon s ⟨id⟩ := by
  unfold goodCanon itemLookup
  rw [show (⟨id⟩ : CanonId).abs = id from rfl, hcr, he₁]
  dsimp only
  rw [hdoc]

/-- Soundness of the resolver suite, by induction on the fuel: from an
invariant state, every call preserves the invariant, only extends the
loaded crates, and produces good canonical ids (for every id a resolver
returns, the referenced item exists and its kind is neither
`ExternCrate` nor a non-glob `Use`). -/
theorem resolve_sound : ∀ n : Nat,
    (∀ (id : AbsId) (fp : Bool) (s : GraphCache), RInv s →
      okCanon s (resolve n id fp s)) ∧
    (∀ (id : AbsId) (fp : Bool) (s : GraphCache), RInv s →
      okCanon s (resolve_inner n id fp s)) ∧
    (∀ (id : CanonId) (path : List String) (s : GraphCache), RInv s →
      goodCanon s id = true → okCanon s (resolve_path_go n id path s)) ∧
    (∀ (id : CanonId) (s : GraphCache), RInv s →
      okNs s (module_namespace n id s)) ∧
    (∀ (id : CanonId) (s : GraphCache), RInv s →
      okNs s (module_namespace_inner n id s)) ∧
    (∀ (id : CanonId) (children : List RId) (acc : AList String CanonId)
      (s : GraphCache), RInv s → (∀ p ∈ acc, goodCanon s p.2 = true) →
      okNs s (module_namespace_go n id children acc s)) := by
  intro n
  induction n with
  | zero =>
    refine ⟨?_, ?_, ?_, ?_, ?_, ?_⟩
    · intro id fp s hs
      exact ⟨hs, Extends.refl s⟩
    · intro id fp s hs
      exact ⟨hs, Extends.refl s⟩
    · intro id path s hs _
      exact ⟨hs, Extends.refl s⟩
    · intro id s hs
      exact ⟨hs, Extends.refl s⟩
    · intro id s hs
      exact ⟨hs, Extends.refl s⟩
    · intro id children acc s hs _
      exact ⟨hs, Extends.refl s⟩
  | succ m IH =>
    obtain ⟨ihResolve, ihInner, ihPath, ihNsC, ihNsI, ihNsGo⟩ := IH
    refine ⟨?_, ?_, ?_, ?_, ?_, ?_⟩
    -- resolve
    · intro id fp s hs
      unfold resolve
      cases hcr : s.crates[id.crate_idx]? with
      | none => exact ⟨hs, Extends.refl s⟩
      | some entry =>
        dsimp only
        cases hslot : entry.resolve_cache[id.item_id]?.join with
        | some val =>
          cases val with
          | id c =>
            have hsl : slotLookup s id = some (.id c) := by
              unfold slotLookup
              rw [hcr]
              exact hslot
            exact ⟨hs, Extends.refl s, hs.cacheGood id c hsl⟩
          | ignore => exact ⟨hs, Extends.refl s⟩
        | none =>
          have hmiss : slotLookup s id = none := by
            unfold slotLookup
            rw [hcr]
            exact hslot
          have hri := ihInner id fp s hs
          cases hricall : resolve_inner m id fp s with
          | ok s₁ c =>
            rw [hricall] at hri
            obtain ⟨hs₁, hext₁, hgc⟩ := hri
            obtain ⟨e₁, he₁, hdoc₁, hroot₁⟩ := hext₁ id.crate_idx entry hcr
            dsimp only
            rw [he₁]
            dsimp only
            have hself : goodCanon s₁ ⟨id⟩ = true → ResolveCacheEntry.id c =
                ResolveCacheEntry.id ⟨id⟩ := by
              intro hg
              rw [goodCanon_eq_of_doc hcr he₁ hdoc₁] at hg
              cases m with
              | zero => rw [show resolve_inner 0 id fp s = .err s .outOfFuel from rfl]
                          at hricall
                        exact absurd hricall (by simp)
              | succ k =>
                rw [resolve_inner_good k id fp hg hmiss] at hricall
                cases hricall
                rfl
            refine ⟨?_, ?_, ?_⟩
            · exact inv_write_slot hs₁ he₁ id.item_id (.id c)
                (fun c' hc' => by cases hc'; exact hgc) (fun hg => hself hg)
            · exact hext₁.trans (extends_updateCache he₁ rfl rfl)
            · have hgu : goodCanon (updateCrate s₁ id.crate_idx
                  { e₁ with resolve_cache := setSlot e₁.resolve_cache id.item_id (.id c) }) c
                  = goodCanon s₁ c := goodCanon_updateCache he₁
                    (show ({ e₁ with resolve_cache := setSlot e₁.resolve_cache id.item_id (.id c) }).rustdoc_json = e₁.rustdoc_json from rfl) c
              rw [hgu]
              exact hgc
          | err s₁ e =>
            rw [hricall] at hri
            obtain ⟨hs₁, hext₁⟩ := hri
            obtain ⟨e₁, he₁, hdoc₁, hroot₁⟩ := hext₁ id.crate_idx entry hcr
            cases e with
            | ignore =>
              dsimp only
              rw [he₁]
              dsimp only
              have hnotgood : goodCanon s₁ ⟨id⟩ = true → False := by
                intro hg
                rw [goodCanon_eq_of_doc hcr he₁ hdoc₁] at hg
                cases m with
                | zero => rw [show resolve_inner 0 id fp s = .err s .outOfFuel from rfl]
                            at hricall
                          exact absurd hricall (by simp)
                | succ k =>
                  rw [resolve_inner_good k id fp hg hmiss] at hricall
                  exact absurd hricall (by simp)
              refine ⟨?_, ?_⟩
              · exact inv_write_slot hs₁ he₁ id.item_id .ignore
                  (fun c' hc' => by cases hc') (fun hg => absurd hg
                    (fun h => hnotgood h))
              · exact hext₁.trans (extends_updateCache he₁ rfl rfl)
            | fail msg =>
              dsimp only
              rw [he₁]
              dsimp only
              refine ⟨?_, ?_⟩
              · exact inv_pad_slot hs₁ he₁ id.item_id
              · exact hext₁.trans (extends_updateCache he₁ rfl rfl)
            | fatal msg => exact ⟨hs₁, hext₁⟩
            | outOfFuel => exact ⟨hs₁, hext₁⟩
    -- resolve_inner
    · intro id fp s hs
      unfold resolve_inner
      cases hcr : s.crates[id.crate_idx]? with
      | none => exact ⟨hs, Extends.refl s⟩
      | some entry =>
        dsimp only
        cases hslot : entry.resolve_cache[id.item_id]?.join with
        | some val =>
          cases val with
          | id c =>
            have hsl : slotLookup s id = some (.id c) := by
              unfold slotLookup
              rw [hcr]
              exact hslot
            exact ⟨hs, Extends.refl s, hs.cacheGood id c hsl⟩
          | ignore => exact ⟨hs, Extends.refl s⟩
        | none =>
          dsimp only
          cases hit : AList.lookup entry.rustdoc_json.index id.item_id with
          | some item =>
            dsimp only
            have hdefault : okCanon s (match canon_id s id with
                | .ok c => MRes.ok s c
                | .error e => MRes.err s e) := by
              cases hcanon : canon_id s id with
              | ok c =>
                obtain ⟨hcid, hg⟩ := canon_id_ok hcanon
                subst hcid
                exact ⟨hs, Extends.refl s, hg⟩
              | error e => exact ⟨hs, Extends.refl s⟩
            cases hk : item.inner with
            | externCrate name rename =>
              dsimp only
              have hrc := resolve_crate_sound name s hs
              cases hcall : resolve_crate name s with
              | ok s₁ mm =>
                rw [hcall] at hrc
                exact ⟨hrc.1, hrc.2.1, hrc.2.2⟩
              | err s₁ e =>
                rw [hcall] at hrc
                exact ⟨hrc.1, hrc.2⟩
            | use_ u =>
              obtain ⟨source, uname, target, is_glob⟩ := u
              cases target with
              | none => exact hdefault
              | some iid2 =>
                cases is_glob with
                | true => exact hdefault
                | false =>
                  dsimp only
                  have hres := ihResolve (id.same_crate iid2) false s hs
                  cases hcall : resolve m (id.same_crate iid2) false s with
                  | ok s₁ c =>
                    rw [hcall] at hres
                    exact ⟨hres.1, hres.2.1, hres.2.2⟩
                  | err s₁ e =>
                    rw [hcall] at hres
                    exact ⟨hres.1, hres.2⟩
            | module mo => exact hdefault
            | union_ u => exact hdefault
            | struct_ st => exact hdefault
            | structField t => exact hdefault
            | enum_ e => exact hdefault
            | variant v => exact hdefault
            | function f => exact hdefault
            | trait_ t => exact hdefault
            | traitAlias => exact hdefault
            | impl_ i => exact hdefault
            | typeAlias t => exact hdefault
            | constant t => exact hdefault
            | staticItem st => exact hdefault
            | externType => exact hdefault
            | macroDecl => exact hdefault
            | procMacroDecl => exact hdefault
            | primitive => exact hdefault
            | assocConst t => exact hdefault
            | assocType g b t => exact hdefault
          | none =>
            dsimp only
            cases hpath : AList.lookup entry.rustdoc_json.paths id.item_id with
            | none => exact ⟨hs, Extends.refl s⟩
            | some summary =>
              dsimp only
              cases hec : AList.lookup entry.rustdoc_json.external_crates
                  summary.crate_id with
              | none => exact ⟨hs, Extends.refl s⟩
              | some ext =>
                dsimp only
                have hrc := resolve_crate_sound ext.name s hs
                cases hcall : resolve_crate ext.name s with
                | err s₁ e =>
                  rw [hcall] at hrc
                  exact ⟨hrc.1, hrc.2⟩
                | ok s₁ mid =>
                  rw [hcall] at hrc
                  obtain ⟨hs₁, hext₁, hgmid⟩ := hrc
                  dsimp only
                  cases hsp : summary.path with
                  | nil => exact ⟨hs₁, hext₁⟩
                  | cons p rest =>
                    dsimp only
                    have hpg := ihPath mid.canon rest s₁ hs₁ hgmid
                    cases hpgcall : resolve_path_go m mid.canon rest s₁ with
                    | ok s₂ c =>
                      rw [hpgcall] at hpg
                      exact ⟨hpg.1, hext₁.trans hpg.2.1, hpg.2.2⟩
                    | err s₂ e =>
                      rw [hpgcall] at hpg
                      exact ⟨hpg.1, hext₁.trans hpg.2⟩
    -- resolve_path_go
    · intro id path s hs hgid
      cases path with
      | nil =>
        unfold resolve_path_go
        exact ⟨hs, Extends.refl s, hgid⟩
      | cons part rest =>
        unfold resolve_path_go
        by_cases hpriv : part = "__private"
        · rw [if_pos hpriv]
          exact ⟨hs, Extends.refl s⟩
        · rw [if_neg hpriv]
          have hmn := ihNsC id s hs
          cases hcall : module_namespace m id s with
          | err s₁ e =>
            rw [hcall] at hmn
            exact ⟨hmn.1, hmn.2⟩
          | ok s₁ ns =>
            rw [hcall] at hmn
            obtain ⟨hs₁, hext₁, hnsg⟩ := hmn
            dsimp only
            cases hlk : AList.lookup ns part with
            | none => exact ⟨hs₁, hext₁⟩
            | some id2 =>
              dsimp only
              have hg2 : goodCanon s₁ id2 = true :=
                hnsg (part, id2) (AList.lookup_mem ns part id2 hlk)
              have hrec := ihPath id2 rest s₁ hs₁ hg2
              exact okCanon_trans hext₁ hrec
    -- module_namespace
    · intro id s hs
      unfold module_namespace
      cases hcl : importLookup s id with
      | some ns => exact ⟨hs, Extends.refl s, hs.nsGood id ns hcl⟩
      | none =>
        dsimp only
        have hmi := ihNsI id s hs
        cases hcall : module_namespace_inner m id s with
        | err s₁ e =>
          rw [hcall] at hmi
          exact ⟨hmi.1, hmi.2⟩
        | ok s₁ ns =>
          rw [hcall] at hmi
          obtain ⟨hs₁, hext₁, hnsg⟩ := hmi
          dsimp only
          cases hcr : s₁.crates[id.abs.crate_idx]? with
          | none => exact ⟨hs₁, hext₁⟩
          | some e₁ =>
            dsimp only
            refine ⟨?_, ?_, ?_⟩
            · exact inv_write_ns hs₁ hcr id.abs.item_id ns hnsg
            · exact hext₁.trans (extends_updateCache hcr rfl rfl)
            · intro p hp
              have hgu : goodCanon (updateCrate s₁ id.abs.crate_idx
                  { e₁ with import_cache := setSlot e₁.import_cache id.abs.item_id ns }) p.2
                  = goodCanon s₁ p.2 := goodCanon_updateCache hcr
                    (show ({ e₁ with import_cache := setSlot e₁.import_cache id.abs.item_id ns }).rustdoc_json = e₁.rustdoc_json from rfl) p.2
              rw [hgu]
              exact hnsg p hp
    -- module_namespace_inner
    · intro id s hs
      unfold module_namespace_inner
      cases hit : itemLookup s id.abs with
      | none => exact ⟨hs, Extends.refl s⟩
      | some item =>
        dsimp only
        cases hk : item.inner with
        | module mo =>
          dsimp only
          exact ihNsGo id mo.items [] s hs (fun p hp => absurd hp (by simp))
        | externCrate name rename => exact ⟨hs, Extends.refl s⟩
        | use_ u => exact ⟨hs, Extends.refl s⟩
        | union_ u => exact ⟨hs, Extends.refl s⟩
        | struct_ st => exact ⟨hs, Extends.refl s⟩
        | structField t => exact ⟨hs, Extends.refl s⟩
        | enum_ e => exact ⟨hs, Extends.refl s⟩
        | variant v => exact ⟨hs, Extends.refl s⟩
        | function f => exact ⟨hs, Extends.refl s⟩
        | trait_ t => exact ⟨hs, Extends.refl s⟩
        | traitAlias => exact ⟨hs, Extends.refl s⟩
        | impl_ i => exact ⟨hs, Extends.refl s⟩
        | typeAlias t => exact ⟨hs, Extends.refl s⟩
        | constant t => exact ⟨hs, Extends.refl s⟩
        | staticItem st => exact ⟨hs, Extends.refl s⟩
        | externType => exact ⟨hs, Extends.refl s⟩
        | macroDecl => exact ⟨hs, Extends.refl s⟩
        | procMacroDecl => exact ⟨hs, Extends.refl s⟩
        | primitive => exact ⟨hs, Extends.refl s⟩
        | assocConst t => exact ⟨hs, Extends.refl s⟩
        | assocType g b t => exact ⟨hs, Extends.refl s⟩
    -- module_namespace_go
    · intro id children acc s hs hacc
      cases children with
      | nil =>
        unfold module_namespace_go
        exact ⟨hs, Extends.refl s, hacc⟩
      | cons child rest =>
        unfold module_namespace_go
        have hres := ihResolve (id.abs.same_crate child) false s hs
        cases hcall : resolve m (id.abs.same_crate child) false s with
        | err s₁ e =>
          rw [hcall] at hres
          obtain ⟨hs₁, hext₁⟩ := hres
          cases e with
          | ignore =>
            dsimp only
            exact okNs_trans hext₁ (ihNsGo id rest acc s₁ hs₁
              (fun p hp => goodCanon_mono hext₁ p.2 (hacc p hp)))
          | fail msg => exact ⟨hs₁, hext₁⟩
          | fatal msg => exact ⟨hs₁, hext₁⟩
          | outOfFuel => exact ⟨hs₁, hext₁⟩
        | ok s₁ cid =>
          rw [hcall] at hres
          obtain ⟨hs₁, hext₁, hgcid⟩ := hres
          dsimp only
          cases hcit : itemLookup s₁ cid.abs with
          | none => exact ⟨hs₁, hext₁⟩
          | some citem =>
            dsimp only
            cases hnm : citem.name with
            | some nm =>
              dsimp only
              refine okNs_trans hext₁ (ihNsGo id rest (AList.insert acc nm cid) s₁ hs₁ ?_)
              intro p hp
              rcases AList.mem_insert acc nm cid p hp with h | h
              · cases h
                exact hgcid
              · exact goodCanon_mono hext₁ p.2 (hacc p h)
            | none =>
              dsimp only
              have hdefault : okNs s (module_namespace_go m id rest acc s₁) :=
                okNs_trans hext₁ (ihNsGo id rest acc s₁ hs₁
                  (fun p hp => goodCanon_mono hext₁ p.2 (hacc p hp)))
              cases hk : citem.inner with
              | use_ u =>
                obtain ⟨source, uname, target, is_glob⟩ := u
                cases target with
                | none => exact hdefault
                | some gid =>
                  cases is_glob with
                  | false => exact hdefault
                  | true =>
                    dsimp only
                    have hres2 := ihResolve (cid.abs.same_crate gid) false s₁ hs₁
                    cases hcall2 : resolve m (cid.abs.same_crate gid) false s₁ with
                    | err s₂ e =>
                      rw [hcall2] at hres2
                      obtain ⟨hs₂, hext₂⟩ := hres2
                      cases e with
                      | ignore =>
                        dsimp only
                        exact okNs_trans (hext₁.trans hext₂)
                          (ihNsGo id rest acc s₂ hs₂ (fun p hp =>
                            goodCanon_mono (hext₁.trans hext₂) p.2 (hacc p hp)))
                      | fail msg => exact ⟨hs₂, hext₁.trans hext₂⟩
                      | fatal msg => exact ⟨hs₂, hext₁.trans hext₂⟩
                      | outOfFuel => exact ⟨hs₂, hext₁.trans hext₂⟩
                    | ok s₂ gcid =>
                      rw [hcall2] at hres2
                      obtain ⟨hs₂, hext₂, hggcid⟩ := hres2
                      dsimp only
                      have hmni := ihNsI gcid s₂ hs₂
                      cases hcall3 : module_namespace_inner m gcid s₂ with
                      | err s₃ e =>
                        rw [hcall3] at hmni
                        exact ⟨hmni.1, (hext₁.trans hext₂).trans hmni.2⟩
                      | ok s₃ gns =>
                        rw [hcall3] at hmni
                        obtain ⟨hs₃, hext₃, hgns⟩ := hmni
                        dsimp only
                        refine okNs_trans ((hext₁.trans hext₂).trans hext₃)
                          (ihNsGo id rest (AList.extendWith acc gns) s₃ hs₃ ?_)
                        intro p hp
                        rcases AList.mem_extendWith acc gns p hp with h | h
                        · exact goodCanon_mono ((hext₁.trans hext₂).trans hext₃)
                            p.2 (hacc p h)
                        · exact hgns p h
              | module mo => exact hdefault
              | externCrate name rename => exact hdefault
              | union_ u => exact hdefault
              | struct_ st => exact hdefault
              | structField t => exact hdefault
              | enum_ e => exact hdefault
              | variant v => exact hdefault
              | function f => exact hdefault
              | trait_ t => exact hdefault
              | traitAlias => exact hdefault
              | impl_ i => exact hdefault
              | typeAlias t => exact hdefault
              | constant t => exact hdefault
              | staticItem st => exact hdefault
              | externType => exact hdefault
              | macroDecl => exact hdefault
              | procMacroDecl => exact hdefault
              | primitive => exact hdefault
              | assocConst t => exact hdefault
              | assocType g b t => exact hdefault

/-- A good canonical id resolves to itself: on a cache hit the slot can
only hold the id (by the invariant), and on a miss `resolve_inner` takes
the base case. -/
theorem resolve_self (n : Nat) (c : CanonId) (fp : Bool) {s : GraphCache}
    (hs : RInv s) (hg : goodCanon s c = true) :
    ∃ s' : GraphCache, resolve (n+2) c.abs fp s = .ok s' c := by
  have hg' : goodCanon s ⟨c.abs⟩ = true := hg
  have hcrates : ∃ entry : CrateEntry, s.crates[c.abs.crate_idx]? = some entry := by
    unfold goodCanon itemLookup at hg
    cases hcr : s.crates[c.abs.crate_idx]? with
    | none => rw [hcr] at hg; simp at hg
    | some entry => exact ⟨entry, rfl⟩
  obtain ⟨entry, hcr⟩ := hcrates
  unfold resolve
  rw [hcr]
  dsimp only
  rcases hs.cacheSelf c.abs hg' with hnone | hsome
  · have hjoin : entry.resolve_cache[c.abs.item_id]?.join = none := by
      unfold slotLookup at hnone
      rw [hcr] at hnone
      exact hnone
    rw [hjoin]
    dsimp only
    rw [resolve_inner_good n c.abs fp hg' hnone]
    dsimp only
    rw [hcr]
    dsimp only
    exact ⟨_, rfl⟩
  · have hjoin : entry.resolve_cache[c.abs.item_id]?.join = some (.id ⟨c.abs⟩) := by
      unfold slotLookup at hsome
      rw [hcr] at hsome
      exact hsome
    rw [hjoin]
    dsimp only
    exact ⟨s, rfl⟩

/-- Unfolded reading of goodness: the item exists and its kind is
canonical. -/
theorem goodCanon_spec {s : GraphCache} {c : CanonId} :
    goodCanon s c = true ↔
      ∃ item : Item, itemLookup s c.abs = some item ∧ isBadKind item.inner = false := by
  unfold goodCanon
  cases h : itemLookup s c.abs <;> simp

/-- States whose caches are all empty satisfy the resolver invariant. -/
theorem rinv_of_empty (s : GraphCache)
    (h : ∀ e ∈ s.crates, e.resolve_cache = [] ∧ e.import_cache = []) : RInv s := by
  have hslot : ∀ id : AbsId, slotLookup s id = none := by
    intro id
    unfold slotLookup
    cases hcr : s.crates[id.crate_idx]? with
    | none => rfl
    | some e =>
      have he := h e (List.getElem?_mem hcr)
      dsimp only
      rw [he.1]
      simp
  have hic : ∀ id : CanonId, importLookup s id = none := by
    intro id
    unfold importLookup
    cases hcr : s.crates[id.abs.crate_idx]? with
    | none => rfl
    | some e =>
      have he := h e (List.getElem?_mem hcr)
      dsimp only
      rw [he.2]
      simp
  constructor
  · intro id c hsl
    rw [hslot id] at hsl
    exact absurd hsl (by simp)
  · intro id _
    exact .inl (hslot id)
  · intro id ns hns
    rw [hic id] at hns
    exact absurd hns (by simp)

/-- The `filter_public` flag has no effect on `resolve_inner` (its only
use in the source is an empty `if` block). -/
theorem resolve_inner_fp (n : Nat) (id : AbsId) (fp fp' : Bool) (s : GraphCache) :
    resolve_inner n id fp s = resolve_inner n id fp' s := by
  cases n <;> rfl

/-- CLAIM C9: the `filter_public` argument of `resolve` never affects
its result: for every id and state, `resolve(id, true)` and
`resolve(id, false)` return the same outcome (same canonical id,
`Ignored`, or failure) and the same final state; `resolve` applies no
public-visibility filtering in any mode. -/
theorem claim_C9 (n : Nat) (id : AbsId) (s : GraphCache) :
    resolve n id true s = resolve n id false s := by
  cases n with
  | zero => rfl
  | succ m =>
    unfold resolve
    rw [resolve_inner_fp m id true false s]

/-- CLAIM C6: for every name in `STDLIBS = [std, core, alloc,
proc_macro, test]`, loading that package returns the `Ignored` sentinel
with the state unchanged — the documentation provider is not invoked and
no package entry is registered. -/
theorem claim_C6 (crate_name : String) (s : GraphCache)
    (h : crate_name ∈ STDLIBS) :
    resolve_crate crate_name s = .err s .ignore := by
  have hw : crate_name ≠ "webpki" := by
    intro h'
    subst h'
    revert h
    decide
  unfold resolve_crate
  rw [if_neg hw]
  rw [if_pos (by
    rw [List.contains_eq_any_beq]
    exact List.any_eq_true.mpr ⟨crate_name, h, by simp⟩)]

/-- CLAIM C6 witness: loading the standard library crate `std` from a
fresh cache is ignored. -/
theorem claim_C6_witness :
    ("std" ∈ STDLIBS) ∧
      resolve_crate "std" (GraphCache.new envW) =
        .err (GraphCache.new envW) .ignore := by
  refine ⟨by decide, claim_C6 "std" (GraphCache.new envW) (by decide)⟩

/-- CLAIM C3: canonicalization is idempotent.  If `resolve` succeeds on
`x` with canonical id `c` (from an invariant-satisfying state), then
`resolve` on `c` itself succeeds and returns `c`
(resolve(resolve(x)) = resolve(x)), for any fuel and either
filter-public mode. -/
theorem claim_C3 {n : Nat} {x : AbsId} {fp : Bool} {s s' : GraphCache} {c : CanonId}
    (hs : RInv s) (h : resolve n x fp s = .ok s' c) :
    ∀ (m : Nat) (fp' : Bool), ∃ s'' : GraphCache,
      resolve (m+2) c.abs fp' s' = .ok s'' c := by
  have hok := (resolve_sound n).1 x fp s hs
  rw [h] at hok
  exact fun m fp' => resolve_self m c fp' hok.1 hok.2.2

/-- CLAIM C4: every `CanonId` produced by `resolve` or by `resolve_path`
(from an invariant-satisfying state, with a canonical module input for
`resolve_path`) refers to an item that exists in the loaded indices and
whose kind is neither `ExternCrate` nor a non-glob `Use`. -/
theorem claim_C4 :
    (∀ (n : Nat) (id : AbsId) (fp : Bool) (s s' : GraphCache) (c : CanonId),
      RInv s → resolve n id fp s = .ok s' c →
      ∃ item : Item, itemLookup s' c.abs = some item ∧ isBadKind item.inner = false) ∧
    (∀ (n : Nat) (mid : ModuleId) (path : List String) (s s' : GraphCache) (c : CanonId),
      RInv s → goodCanon s mid.canon = true → resolve_path n mid path s = .ok s' c →
      ∃ item : Item, itemLookup s' c.abs = some item ∧ isBadKind item.inner = false) := by
  constructor
  · intro n id fp s s' c hs h
    have hok := (resolve_sound n).1 id fp s hs
    rw [h] at hok
    exact goodCanon_spec.mp hok.2.2
  · intro n mid path s s' c hs hg h
    have hok := (resolve_sound n).2.2.1 mid.canon path s hs hg
    unfold resolve_path at h
    rw [h] at hok
    exact goodCanon_spec.mp hok.2.2

/-! ## BFS lemmas. -/

/-- The child loop of the BFS only ever inserts into the output map:
every key present before is present after. -/
theorem bfs_children_hash_mono :
    ∀ (n : Nat) (rp : Bool) (parent : CanonId) (rj : Crate) (children : List RId)
      (queue : List CanonId) (hash : AList CanonId String) (s s' : GraphCache)
      (out : List CanonId × AList CanonId String),
      bfs_children n rp parent rj children queue hash s = .ok s' out →
      ∀ k : CanonId, AList.contains hash k = true → AList.contains out.2 k = true := by
  intro n
  induction n with
  | zero =>
    intro rp parent rj children queue hash s s' out h
    exact absurd h (by simp [bfs_children])
  | succ m IH =>
    intro rp parent rj children queue hash s s' out h k hk
    cases children with
    | nil =>
      rw [show bfs_children (m+1) rp parent rj [] queue hash s = .ok s (queue, hash)
        from rfl] at h
      cases h
      exact hk
    | cons iid2 rest =>
      unfold bfs_children at h
      dsimp only at h
      by_cases hgate : (rp && !isPublicChild rj iid2) = true
      · rw [if_pos hgate] at h
        exact IH rp parent rj rest queue hash s s' out h k hk
      · rw [if_neg hgate] at h
        cases hres : resolve m (parent.abs.same_crate iid2) true s with
        | ok sr id2 =>
          rw [hres] at h
          dsimp only at h
          by_cases hc : AList.contains hash id2 = true
          · rw [if_pos hc] at h
            exact IH rp parent rj rest queue hash sr s' out h k hk
          · rw [if_neg hc] at h
            cases hnm : bfs_child_name rj iid2 with
            | error e =>
              rw [hnm] at h
              exact absurd h (by simp)
            | ok item2_name =>
              rw [hnm] at h
              dsimp only at h
              cases hpl : AList.lookup hash parent with
              | none =>
                rw [hpl] at h
                exact absurd h (by simp)
              | some parent_label =>
                rw [hpl] at h
                dsimp only at h
                refine IH rp parent rj rest _ _ sr s' out h k ?_
                exact AList.contains_insert hash k id2 _ hk
        | err sr e =>
          rw [hres] at h
          cases e with
          | fail msg =>
            dsimp only at h
            cases hpl : AList.lookup hash parent with
            | none =>
              rw [hpl] at h
              exact absurd h (by simp)
            | some parent_label =>
              rw [hpl] at h
              dsimp only at h
              exact IH rp parent rj rest queue hash _ s' out h k hk
          | ignore =>
            dsimp only at h
            exact IH rp parent rj rest queue hash sr s' out h k hk
          | fatal msg => exact absurd h (by simp)
          | outOfFuel => exact absurd h (by simp)

/-- The BFS worklist loop only ever inserts into the output map. -/
theorem bfs_go_hash_mono :
    ∀ (n : Nat) (link : Item → Except String (List RId)) (rp : Bool)
      (queue : List CanonId) (hash : AList CanonId String) (s s' : GraphCache)
      (out : AList CanonId String),
      bfs_go n link rp queue hash s = .ok s' out →
      ∀ k : CanonId, AList.contains hash k = true → AList.contains out k = true := by
  intro n
  induction n with
  | zero =>
    intro link rp queue hash s s' out h
    exact absurd h (by simp [bfs_go])
  | succ m IH =>
    intro link rp queue hash s s' out h k hk
    cases queue with
    | nil =>
      rw [show bfs_go (m+1) link rp [] hash s = .ok s hash from rfl] at h
      cases h
      exact hk
    | cons id rest =>
      unfold bfs_go at h
      cases hcr : s.crates[id.abs.crate_idx]? with
      | none =>
        rw [hcr] at h
        exact absurd h (by simp)
      | some entry =>
        rw [hcr] at h
        dsimp only at h
        cases hit : AList.lookup entry.rustdoc_json.index id.abs.item_id with
        | none =>
          rw [hit] at h
          exact absurd h (by simp)
        | some item =>
          rw [hit] at h
          dsimp only at h
          cases hlk : link item with
          | error msg =>
            rw [hlk] at h
            exact absurd h (by simp)
          | ok children =>
            rw [hlk] at h
            dsimp only at h
            cases hbc : bfs_children m rp id entry.rustdoc_json children rest hash s with
            | err sr e =>
              rw [hbc] at h
              exact absurd h (by simp)
            | ok sr out₁ =>
              rw [hbc] at h
              dsimp only at h
              exact IH link rp out₁.1 out₁.2 sr s' out h k
                (bfs_children_hash_mono m rp id entry.rustdoc_json children rest hash
                  s sr out₁ hbc k hk)

/-- CLAIM C2: every key of the importable map computed by the first BFS
phase is also a key of the visible map produced by the second BFS phase
seeded with it — the importable set is a subset of the visible set,
because `bfs` pre-populates its output with the seed and never removes
entries. -/
theorem claim_C2 {fuel₁ fuel₂ : Nat} {env : Env} {s₁ s₂ : GraphCache}
    {importable visible : AList CanonId String}
    (_h1 : bfs fuel₁ link_importable none true (GraphCache.new env) = .ok s₁ importable)
    (h2 : bfs fuel₂ link_visible (some importable) false s₁ = .ok s₂ visible) :
    ∀ k : CanonId, AList.contains importable k = true →
      AList.contains visible k = true := by
  unfold bfs at h2
  exact fun k hk => bfs_go_hash_mono fuel₂ link_visible false
    (AList.keysOf importable) importable s₁ s₂ visible h2 k hk

/-- CLAIM C2 witness: in world W, the key of the re-exported struct
`Bar` is importable and hence also a key of the visible map. -/
theorem claim_C2_witness :
    AList.contains wImportable ⟨⟨0, 2⟩⟩ = true ∧
      AList.contains wVisible ⟨⟨0, 2⟩⟩ = true :=
  ⟨rfl, claim_C2 phase1W_eval phase2W_eval ⟨⟨0, 2⟩⟩ rfl⟩

/-- CLAIM C10: `resolve` caches only successful and `Ignored` outcomes,
keyed by the input id.  When `resolve_inner` fails on a cache miss,
`resolve` returns the failure with the cache vector only grown by `None`
padding: every cache lookup — in particular the input id's slot — is
exactly as `resolve_inner` left it, so no entry is recorded and a later
call on the same id misses again and re-runs resolution. -/
theorem claim_C10 {m : Nat} {id : AbsId} {fp : Bool} {s s₁ : GraphCache}
    {entry e₁ : CrateEntry} {msg : String}
    (hcr : s.crates[id.crate_idx]? = some entry)
    (hmiss : entry.resolve_cache[id.item_id]?.join = none)
    (hfail : resolve_inner m id fp s = .err s₁ (.fail msg))
    (he₁ : s₁.crates[id.crate_idx]? = some e₁) :
    resolve (m+1) id fp s =
      .err (updateCrate s₁ id.crate_idx
        { e₁ with resolve_cache := padTo e₁.resolve_cache id.item_id }) (.fail msg) ∧
    (∀ j : AbsId, slotLookup (updateCrate s₁ id.crate_idx
        { e₁ with resolve_cache := padTo e₁.resolve_cache id.item_id }) j =
        slotLookup s₁ j) := by
  constructor
  · unfold resolve
    rw [hcr]
    dsimp only
    rw [hmiss]
    dsimp only
    rw [hfail]
    dsimp only
    rw [he₁]
  · intro j
    exact slotLookup_update_rc_pad he₁ id.item_id j

/-- CLAIM C7: when resolving a child during BFS fails with a `Fail`
error, the BFS does not abort: the wrapped error message is appended to
standard error, the child is neither inserted into the output map nor
enqueued, and the traversal continues with the remaining children on the
unchanged queue and map — so the failure alone never makes the `bfs`
call return an error. -/
theorem claim_C7 {m : Nat} {require_public : Bool} {parent : CanonId} {rj : Crate}
    {iid2 : RId} {rest : List RId} {queue : List CanonId}
    {hash : AList CanonId String} {s s₁ : GraphCache} {msg plabel : String}
    (hgate : require_public = false ∨ isPublicChild rj iid2 = true)
    (hres : resolve m (parent.abs.same_crate iid2) true s = .err s₁ (.fail msg))
    (hpl : AList.lookup hash parent = some plabel) :
    bfs_children (m+1) require_public parent rj (iid2 :: rest) queue hash s =
      bfs_children m require_public parent rj rest queue hash
        (pushStderr s₁ ("Resolving child of " ++ plabel ++ ": " ++ msg)) ∧
    (pushStderr s₁ ("Resolving child of " ++ plabel ++ ": " ++ msg)).stderr =
      s₁.stderr ++ ["Resolving child of " ++ plabel ++ ": " ++ msg] := by
  have hgate' : (require_public && !isPublicChild rj iid2) = false := by
    rcases hgate with h | h
    · rw [h]
      rfl
    · rw [h]
      simp
  constructor
  · conv_lhs => unfold bfs_children
    simp only [hgate', Bool.false_eq_true, if_false, hres, hpl]
  · rfl

/-- CLAIM C7 witness: in world F the root's child 1 fails to resolve;
the BFS child loop logs and continues with the rest. -/
theorem claim_C7_witness :
    bfs_children 9 false ⟨⟨0, 0⟩⟩ crateF [1] [] [(⟨⟨0, 0⟩⟩, "f_root")] sF1 =
      bfs_children 8 false ⟨⟨0, 0⟩⟩ crateF [] [] [(⟨⟨0, 0⟩⟩, "f_root")]
        (pushStderr sF2
          ("Resolving child of f_root: Rustdoc JSON id neither in expected index or paths")) :=
  (@claim_C7 8 false ⟨⟨0, 0⟩⟩ crateF 1 [] [] [(⟨⟨0, 0⟩⟩, "f_root")] sF1 sF2
    "Rustdoc JSON id neither in expected index or paths" "f_root"
    (Or.inl rfl) resolveF_fail_eval2 rfl).1

/-- CLAIM C10 witness: in world F the failing resolution leaves the
input id's cache slot unwritten. -/
theorem claim_C10_witness :
    resolve 9 ⟨0, 1⟩ true sF1 =
      .err sF2 (.fail "Rustdoc JSON id neither in expected index or paths") ∧
    slotLookup sF2 ⟨0, 1⟩ = none := by
  have h := @claim_C10 8 ⟨0, 1⟩ true sF1 sF1
      { rustdoc_json := crateF, root_module := 0, resolve_cache := [],
        import_cache := [] }
      { rustdoc_json := crateF, root_module := 0, resolve_cache := [],
        import_cache := [] }
      "Rustdoc JSON id neither in expected index or paths"
      rfl rfl resolveF_fail_eval rfl
  exact ⟨h.1, rfl⟩

/-- Concrete invariants: states whose caches are empty. -/
theorem rinv_sW1 : RInv sW1 := by
  refine rinv_of_empty sW1 ?_
  intro e he
  cases he with
  | head => exact ⟨rfl, rfl⟩
  | tail _ h => cases h

theorem rinv_sW1d : RInv sW1d := by
  refine rinv_of_empty sW1d ?_
  intro e he
  cases he with
  | head => exact ⟨rfl, rfl⟩
  | tail _ h =>
    cases h with
    | head => exact ⟨rfl, rfl⟩
    | tail _ h' => cases h'

/-- CLAIM C3 witness: in world W, resolving the `pub use` item yields
the struct `Bar`, and resolving that canonical id again returns it
unchanged. -/
theorem claim_C3_witness :
    resolve 8 ⟨0, 3⟩ true sW1 = .ok sW1b ⟨⟨0, 2⟩⟩ ∧
    (∃ s'' : GraphCache, resolve 6 ⟨0, 2⟩ true sW1b = .ok s'' ⟨⟨0, 2⟩⟩) :=
  ⟨resolveW_use_eval, claim_C3 rinv_sW1 resolveW_use_eval 4 true⟩

/-- CLAIM C4 witness: both the resolver output of world W's `pub use`
item and the path-resolution output of `w_dep::T` are canonical-kind
items. -/
theorem claim_C4_witness :
    (∃ item : Item, itemLookup sW1b ⟨0, 2⟩ = some item ∧
      isBadKind item.inner = false) ∧
    (∃ item : Item, itemLookup sW1e ⟨1, 1⟩ = some item ∧
      isBadKind item.inner = false) :=
  ⟨claim_C4.1 8 ⟨0, 3⟩ true sW1 sW1b ⟨⟨0, 2⟩⟩ rinv_sW1 resolveW_use_eval,
   claim_C4.2 8 ⟨⟨⟨1, 0⟩⟩⟩ ["T"] sW1d sW1e ⟨⟨1, 1⟩⟩ rinv_sW1d rfl resolve_path_w_eval⟩

/-- Gate condition of the BFS child loop, when it does not skip. -/
theorem gate_false {rp b : Bool} (h : rp = false ∨ b = true) : (rp && !b) = false := by
  rcases h with h | h
  · rw [h]
    rfl
  · rw [h]
    simp

/-- CLAIM C5 counterexample: in world G the root module declares
`struct Foo` (item 1) and then glob-imports module `m`, which also
declares a `Foo` (item 4).  The computed namespace maps `Foo` to the
glob-imported item, not to the direct named child — so a direct named
child does not always take priority over glob entries. -/
theorem claim_C5_counterexample :
    (module_namespace_inner 16 ⟨⟨0, 0⟩⟩ sG1).val = .ok [("Foo", ⟨⟨0, 4⟩⟩)] ∧
    AList.lookup crateG.index 1 =
      some { name := some "Foo", visibility := .public,
             inner := .struct_ { kind := .unit, generics := emptyGenerics,
                                 impls := [] } } ∧
    (⟨⟨0, 4⟩⟩ : CanonId) ≠ ⟨⟨0, 1⟩⟩ :=
  ⟨namespaceG_eval, rfl, by decide⟩

/-- CLAIM C5 (amended): the namespace of a module is built by processing
the module's children in source order, each named entry being inserted
with last-writer-wins overwriting.  A direct named child therefore takes
priority over a same-named entry pulled in by a glob import only when it
is processed after the glob import; symmetrically, a later glob import
overwrites an earlier direct child.  Processing a named child inserts
its name over any existing binding and continues with the remaining
children. -/
theorem claim_C5_amended {m : Nat} {id : CanonId} {child : RId} {rest : List RId}
    {acc : AList String CanonId} {s s₁ : GraphCache} {cid : CanonId}
    {citem : Item} {nm : String}
    (hres : resolve m (id.abs.same_crate child) false s = .ok s₁ cid)
    (hit : itemLookup s₁ cid.abs = some citem)
    (hnm : citem.name = some nm) :
    module_namespace_go (m+1) id (child :: rest) acc s =
      module_namespace_go m id rest (AList.insert acc nm cid) s₁ ∧
    AList.lookup (AList.insert acc nm cid) nm = some cid := by
  constructor
  · conv_lhs => unfold module_namespace_go
    simp only [hres, hit, hnm]
  · exact AList.lookup_insert acc nm cid

/-- CLAIM C5 (amended) witness: in world G, processing the direct child
`Foo` first binds it, before the glob import is processed. -/
theorem claim_C5_amended_witness :
    module_namespace_go 9 ⟨⟨0, 0⟩⟩ [1, 2] [] sG1 =
      module_namespace_go 8 ⟨⟨0, 0⟩⟩ [2] [("Foo", ⟨⟨0, 1⟩⟩)] sG1b ∧
    AList.lookup [("Foo", (⟨⟨0, 1⟩⟩ : CanonId))] "Foo" = some ⟨⟨0, 1⟩⟩ :=
  claim_C5_amended resolveG_foo_eval rfl rfl

/-- CLAIM C8 counterexample: in world G the first BFS phase maps the
distinct ids of the root module (0,0) and of its glob use item (0,2) to
the same label `g_root` — labels are not unique. -/
theorem claim_C8_counterexample :
    (bfs 16 link_importable none true (GraphCache.new envG)).val = .ok gImportable ∧
    (⟨⟨0, 0⟩⟩ : CanonId) ≠ ⟨⟨0, 2⟩⟩ ∧
    AList.lookup gImportable ⟨⟨0, 0⟩⟩ = some "g_root" ∧
    AList.lookup gImportable ⟨⟨0, 2⟩⟩ = some "g_root" :=
  ⟨phase1G_eval, by decide, rfl, rfl⟩

/-- CLAIM C8 (amended): labels in a BFS output map need not be distinct
for distinct ids.  A freshly discovered child whose display-name
derivation yields no segment (an inherent impl or a glob use) is
inserted with exactly its parent's label, so the parent and the child —
two distinct keys — share one label. -/
theorem claim_C8_amended {m : Nat} {rp : Bool} {parent : CanonId} {rj : Crate}
    {iid2 : RId} {rest : List RId} {queue : List CanonId}
    {hash : AList CanonId String} {s s₁ : GraphCache} {id2 : CanonId}
    {plabel : String}
    (hgate : rp = false ∨ isPublicChild rj iid2 = true)
    (hres : resolve m (parent.abs.same_crate iid2) true s = .ok s₁ id2)
    (hc : AList.contains hash id2 = false)
    (hnm : bfs_child_name rj iid2 = .ok none)
    (hpl : AList.lookup hash parent = some plabel) :
    bfs_children (m+1) rp parent rj (iid2 :: rest) queue hash s =
      bfs_children m rp parent rj rest
        (if isPublicChild rj iid2 then queue ++ [id2] else queue)
        (AList.insert hash id2 plabel) s₁ ∧
    AList.lookup (AList.insert hash id2 plabel) id2 = some plabel := by
  constructor
  · conv_lhs => unfold bfs_children
    simp only [gate_false hgate, Bool.false_eq_true, if_false, hres, hc, hnm, hpl]
  · exact AList.lookup_insert hash id2 plabel

/-- CLAIM C8 (amended) witness: in world G the glob use item (0,2) is
inserted with its parent's label `g_root`. -/
theorem claim_C8_amended_witness :
    bfs_children 9 true ⟨⟨0, 0⟩⟩ crateG [2] [] [(⟨⟨0, 0⟩⟩, "g_root")] sG1 =
      bfs_children 8 true ⟨⟨0, 0⟩⟩ crateG [] [⟨⟨0, 2⟩⟩]
        [(⟨⟨0, 0⟩⟩, "g_root"), (⟨⟨0, 2⟩⟩, "g_root")] sG1c ∧
    AList.lookup [((⟨⟨0, 0⟩⟩ : CanonId), "g_root"), (⟨⟨0, 2⟩⟩, "g_root")] ⟨⟨0, 2⟩⟩ =
      some "g_root" :=
  claim_C8_amended (Or.inr rfl) resolveG_glob_eval rfl rfl rfl

/-! ## The report phase: code side versus specification side. -/

/-- Item kinds the report keeps (the specification's set
Union/Struct/Enum/Trait/TypeAlias). -/
def reportedKind : ItemEnum → Bool
  | .union_ _ => true
  | .struct_ _ => true
  | .enum_ _ => true
  | .trait_ _ => true
  | .typeAlias _ => true
  | _ => false

/-- Boolean form of "the id's item kind is a reported kind". -/
def isReportedId (s : GraphCache) (id : CanonId) : Bool :=
  match itemLookup s id.abs with
  | some item => reportedKind item.inner
  | none => false

/-- Specification-side report, following the specification's words (for
comparison with the code's `report_paths` pipeline): keep ids in
`visible` that are not in `importable` and whose item kind is one of
Union, Struct, Enum, Trait, TypeAlias, and sort their labels
lexicographically. -/
def reportSpec (s : GraphCache) (importable visible : AList CanonId String) :
    List String :=
  sortStrings ((visible.filter (fun p => !AList.contains importable p.1 &&
    isReportedId s p.1)).map (fun p => p.2))

theorem reportKind_ok {k : ItemEnum} {b : Bool} (h : reportKind k = .ok b) :
    reportedKind k = b := by
  cases k <;> first
    | (cases h; rfl)
    | exact absurd h (by simp [reportKind])

/-- The successful filter-and-collect of the report phase produces
exactly the labels the specification keeps (before sorting). -/
theorem report_paths_spec {s : GraphCache} {importable : AList CanonId String} :
    ∀ {visible : AList CanonId String} {paths : List String},
      report_paths s importable visible = .ok paths →
      paths = (visible.filter (fun p => !AList.contains importable p.1 &&
        isReportedId s p.1)).map (fun p => p.2) := by
  intro visible
  induction visible with
  | nil =>
    intro paths h
    cases h
    rfl
  | cons q rest ih =>
    intro paths h
    obtain ⟨id, path⟩ := q
    unfold report_paths at h
    by_cases hc : AList.contains importable id = true
    · rw [if_pos hc] at h
      rw [ih h]
      simp [List.filter_cons, hc]
    · rw [if_neg hc] at h
      cases hit : itemLookup s id.abs with
      | none =>
        rw [hit] at h
        exact absurd h (by simp)
      | some item =>
        rw [hit] at h
        dsimp only at h
        have hrid : isReportedId s id = reportedKind item.inner := by
          unfold isReportedId
          rw [hit]
        cases hrk : reportKind item.inner with
        | error e =>
          rw [hrk] at h
          exact absurd h (by simp)
        | ok b =>
          rw [hrk] at h
          cases b with
          | true =>
            dsimp only at h
            cases hrp : report_paths s importable rest with
            | error e =>
              rw [hrp] at h
              exact absurd h (by simp)
            | ok tail =>
              rw [hrp] at h
              cases h
              rw [ih hrp]
              simp [List.filter_cons, hc, hrid, reportKind_ok hrk]
          | false =>
            dsimp only at h
            rw [ih h]
            simp [List.filter_cons, hc, hrid, reportKind_ok hrk]

/-- CLAIM C1: when both BFS phases and the report filter succeed, the
program's standard output is exactly the header line followed by the
specification's report: the labels of ids in the visible map that are
not importable and whose item kind is one of Union, Struct, Enum, Trait,
TypeAlias, sorted lexicographically — where the visible map is computed
as `bfs(link_visible, seed := importable, require_public := false)`. -/
theorem claim_C1 {fuel : Nat} {env : Env} {s₁ s₂ : GraphCache}
    {importable visible : AList CanonId String} {paths : List String}
    (h1 : bfs fuel link_importable none true (GraphCache.new env) = .ok s₁ importable)
    (h2 : bfs fuel link_visible (some importable) false s₁ = .ok s₂ visible)
    (h3 : report_paths s₂ importable visible = .ok paths) :
    mainStdout fuel env = .ok ("visible but not importable:" ::
      (reportSpec s₂ importable visible).map (fun path => "- " ++ path)) := by
  unfold mainStdout
  rw [h1]
  dsimp only
  rw [h2]
  dsimp only
  rw [h3]
  dsimp only
  rw [report_paths_spec h3]
  rfl

set_option maxHeartbeats 40000000 in
/-- CLAIM C1 witness: world W's run reports exactly the dependency's
non-importable struct `T`. -/
theorem claim_C1_witness :
    mainStdout 16 envW = .ok ["visible but not importable:", "- w_root::f::T"] := by
  have h := claim_C1 phase1W_eval phase2W_eval reportW_eval
  rw [h]
  rfl

end Spbc
